import Mathlib

set_option maxRecDepth 100000

/-!
Verification of the `rust-ovh` client library against its specification.

The development shallowly embeds the library's source (`src/client.rs`,
`src/dns_record.rs`, `src/email_redir.rs`, `src/error.rs`) in Lean:

* the SHA-1 based request-signature computation is embedded with a full,
  executable SHA-1 over byte lists (`sha1Digest`), machine words being
  naturals reduced modulo `2 ^ 32`;
* the HTTP side is embedded as a deterministic state monad `M` over a
  `World` (a local clock and a server environment mapping requests to
  responses) recording the trace of issued requests, with a distinguished
  `panic` outcome mirroring Rust panics (`unwrap` on header construction,
  and arithmetic overflow);
* JSON bodies are parsed and decoded by an executable parser faithful to
  the `serde_json` shapes the library uses.
-/

/-! ## SHA-1 over byte lists

Faithful embedding of the `sha1` crate used by `OvhClient::signature`:
bytes are naturals `< 256`, 32-bit words are naturals reduced mod `2 ^ 32`.
-/

/-- Rotate a 32-bit word (a natural `< 2 ^ 32`) left by `n` bits. -/
def rotl32 (n x : Nat) : Nat :=
  ((x <<< n) % 4294967296) ||| (x >>> (32 - n))

/-- Big-endian 8-byte encoding of a natural (the 64-bit message length). -/
def be8 (n : Nat) : List Nat :=
  [n / 2 ^ 56 % 256, n / 2 ^ 48 % 256, n / 2 ^ 40 % 256, n / 2 ^ 32 % 256,
   n / 2 ^ 24 % 256, n / 2 ^ 16 % 256, n / 2 ^ 8 % 256, n % 256]

/-- SHA-1 message padding: append `0x80`, zero bytes up to 56 mod 64, then
the bit length over 8 big-endian bytes. -/
def sha1Pad (msg : List Nat) : List Nat :=
  let len := msg.length
  let zeros := (120 - (len + 1) % 64) % 64
  msg ++ 128 :: (List.replicate zeros 0 ++ be8 (8 * len))


/-- Combine bytes into big-endian 32-bit words. -/
def wordsOfBytes : List Nat → List Nat
  | b0 :: b1 :: b2 :: b3 :: rest =>
    (((b0 * 256 + b1) * 256 + b2) * 256 + b3) :: wordsOfBytes rest
  | _ => []

/-- Extend the 16 block words to the 80 words of the SHA-1 message schedule. -/
def extendWords (ws : List Nat) : List Nat :=
  (List.range 64).foldl
    (fun acc _ =>
      let n := acc.length
      acc ++ [rotl32 1 (acc.getD (n - 3) 0 ^^^ acc.getD (n - 8) 0 ^^^
                        acc.getD (n - 14) 0 ^^^ acc.getD (n - 16) 0)])
    ws

/-- The five 32-bit state words of SHA-1. -/
structure Sha1State where
  h0 : Nat
  h1 : Nat
  h2 : Nat
  h3 : Nat
  h4 : Nat
deriving Repr, DecidableEq

/-- Initial SHA-1 chaining value. -/
def sha1Init : Sha1State :=
  ⟨0x67452301, 0xEFCDAB89, 0x98BADCFE, 0x10325476, 0xC3D2E1F0⟩

/-- The 80 SHA-1 rounds on one block, the state fields holding the working
variables a, b, c, d, e. -/
def sha1Rounds (ws : List Nat) (s : Sha1State) : Sha1State :=
  (List.range 80).foldl
    (fun st i =>
      let f :=
        if i < 20 then (st.h1 &&& st.h2) ||| ((st.h1 ^^^ 4294967295) &&& st.h3)
        else if i < 40 then st.h1 ^^^ st.h2 ^^^ st.h3
        else if i < 60 then
          (st.h1 &&& st.h2) ||| (st.h1 &&& st.h3) ||| (st.h2 &&& st.h3)
        else st.h1 ^^^ st.h2 ^^^ st.h3
      let k :=
        if i < 20 then 0x5A827999
        else if i < 40 then 0x6ED9EBA1
        else if i < 60 then 0x8F1BBCDC
        else 0xCA62C1D6
      let temp := (rotl32 5 st.h0 + f + st.h4 + k + ws.getD i 0) % 4294967296
      ⟨temp, st.h0, rotl32 30 st.h1, st.h2, st.h3⟩)
    s

/-- Process one 64-byte block: run the 80 rounds and add the result into the
chaining value, each word reduced mod `2 ^ 32`. -/
def sha1Block (s : Sha1State) (block : List Nat) : Sha1State :=
  let t := sha1Rounds (extendWords (wordsOfBytes block)) s
  ⟨(s.h0 + t.h0) % 4294967296, (s.h1 + t.h1) % 4294967296,
   (s.h2 + t.h2) % 4294967296, (s.h3 + t.h3) % 4294967296,
   (s.h4 + t.h4) % 4294967296⟩

/-- Process the padded message 64 bytes at a time; the fuel argument bounds
the number of blocks, keeping the recursion structural. -/
def sha1Loop : Nat → Sha1State → List Nat → Sha1State
  | 0, s, _ => s
  | _, s, [] => s
  | fuel + 1, s, b :: rest =>
    sha1Loop fuel (sha1Block s (b :: rest.take 63)) (rest.drop 63)

/-- Full SHA-1 state for a byte-list message. -/
def sha1Final (msg : List Nat) : Sha1State :=
  let padded := sha1Pad msg
  sha1Loop (padded.length / 64 + 1) sha1Init padded

/-- SHA-1 digest of a byte-list message as a 160-bit natural. -/
def sha1Digest (msg : List Nat) : Nat :=
  let s := sha1Final msg
  (((s.h0 * 4294967296 + s.h1) * 4294967296 + s.h2) * 4294967296 + s.h3)
      * 4294967296 + s.h4

/-- Lower-case hexadecimal digit for a nibble. -/
def hexChar (n : Nat) : Char :=
  if n < 10 then Char.ofNat (48 + n) else Char.ofNat (87 + n)

/-- Forty-digit lower-case hexadecimal rendering of a 160-bit natural, the
`hexdigest` of the `sha1` crate. -/
def toHex40 (n : Nat) : String :=
  String.mk ((List.range 40).map (fun i => hexChar (n / 2 ^ (4 * (39 - i)) % 16)))

/-- UTF-8 encoding of one character as bytes, as Rust strings store them. -/
def utf8Char (c : Char) : List Nat :=
  let n := c.toNat
  if n < 128 then [n]
  else if n < 2048 then [192 + n / 64, 128 + n % 64]
  else if n < 65536 then [224 + n / 4096, 128 + n / 64 % 64, 128 + n % 64]
  else [240 + n / 262144, 128 + n / 4096 % 64, 128 + n / 64 % 64, 128 + n % 64]

/-- UTF-8 bytes of a string. -/
def utf8Bytes (s : String) : List Nat :=
  s.data.foldr (fun c acc => utf8Char c ++ acc) []

/-- Lower-case hex SHA-1 digest of a string, `sha1::Sha1::from(s).hexdigest()`. -/
def sha1Hex (s : String) : String :=
  toHex40 (sha1Digest (utf8Bytes s))

example : sha1Hex "" = "da39a3ee5e6b4b0d3255bfef95601890afd80709" := by decide
example : sha1Hex "abc" = "a9993e364706816aba3e25717850c26c9cd0d89d" := by decide

/-! ## Decimal rendering

Rust's `u64`/`i64`/`ToString` decimal rendering, used for `format!` of record
ids and for `timestamp.to_string()`. -/

/-- Decimal digit character for a value below ten. -/
def digitChar (n : Nat) : Char := Char.ofNat (48 + n)

/-- Digits accumulator; the fuel argument keeps the recursion structural and
is always at least the digit count, so it never truncates. -/
def natDecAux : Nat → Nat → List Char → List Char
  | 0, _, acc => acc
  | fuel + 1, n, acc =>
    if n < 10 then digitChar n :: acc
    else natDecAux fuel (n / 10) (digitChar (n % 10) :: acc)

/-- Decimal rendering of a natural number. -/
def natDec (n : Nat) : String := String.mk (natDecAux (n + 1) n [])

/-- Decimal rendering of an integer, `i64::to_string`. -/
def intDec : Int → String
  | .ofNat n => natDec n
  | .negSucc m => "-" ++ natDec (m + 1)

example : natDec 0 = "0" := by decide
example : natDec 1015 = "1015" := by decide
example : intDec (-5) = "-5" := by decide

/-! ## JSON values, printing and parsing

The `serde_json` fragment the library exercises: response bodies are parsed
to a value tree and decoded into the typed structures; request payloads are
flat structures rendered in declaration order. Only integer numbers are
modelled — every numeric field the library decodes is an integer type, so a
fractional number draws a decode failure either way. -/

/-- JSON value trees. -/
inductive Json where
  | null
  | bool (b : Bool)
  | num (n : Int)
  | str (s : String)
  | arr (xs : List Json)
  | obj (fields : List (String × Json))
deriving Repr

/-- Escaping of one character inside a JSON string literal, as `serde_json`
renders it. -/
def jsonEscapeChar (c : Char) : String :=
  if c = '"' then "\\\""
  else if c = '\\' then "\\\\"
  else if c.toNat = 8 then "\\b"
  else if c.toNat = 9 then "\\t"
  else if c.toNat = 10 then "\\n"
  else if c.toNat = 12 then "\\f"
  else if c.toNat = 13 then "\\r"
  else if c.toNat < 32 then
    "\\u00" ++ String.mk [hexChar (c.toNat / 16), hexChar (c.toNat % 16)]
  else String.singleton c

/-- A JSON string literal with its quotes. -/
def jsonStrLit (s : String) : String :=
  "\"" ++ String.join (s.data.map jsonEscapeChar) ++ "\""

/-- Drop leading JSON whitespace. -/
def skipWs : List Char → List Char
  | [] => []
  | c :: rest =>
    if c = ' ' ∨ c.toNat = 9 ∨ c.toNat = 10 ∨ c.toNat = 13 then skipWs rest
    else c :: rest

/-- Value of a hexadecimal digit character. -/
def hexVal (c : Char) : Option Nat :=
  if 48 ≤ c.toNat ∧ c.toNat ≤ 57 then some (c.toNat - 48)
  else if 97 ≤ c.toNat ∧ c.toNat ≤ 102 then some (c.toNat - 87)
  else if 65 ≤ c.toNat ∧ c.toNat ≤ 70 then some (c.toNat - 55)
  else none

/-- Parse the inside of a JSON string literal after the opening quote,
returning the decoded string and the rest of the input. -/
def parseStrLit : List Char → List Char → Option (String × List Char)
  | [], _ => none
  | c :: rest, acc =>
    if c = '"' then some (String.mk acc.reverse, rest)
    else if c = '\\' then
      match rest with
      | [] => none
      | e :: r2 =>
        if e = '"' then parseStrLit r2 ('"' :: acc)
        else if e = '\\' then parseStrLit r2 ('\\' :: acc)
        else if e = '/' then parseStrLit r2 ('/' :: acc)
        else if e = 'b' then parseStrLit r2 (Char.ofNat 8 :: acc)
        else if e = 't' then parseStrLit r2 (Char.ofNat 9 :: acc)
        else if e = 'n' then parseStrLit r2 (Char.ofNat 10 :: acc)
        else if e = 'f' then parseStrLit r2 (Char.ofNat 12 :: acc)
        else if e = 'r' then parseStrLit r2 (Char.ofNat 13 :: acc)
        else if e = 'u' then
          match r2 with
          | h1 :: h2 :: h3 :: h4 :: r3 =>
            match hexVal h1, hexVal h2, hexVal h3, hexVal h4 with
            | some v1, some v2, some v3, some v4 =>
              parseStrLit r3 (Char.ofNat (((v1 * 16 + v2) * 16 + v3) * 16 + v4) :: acc)
            | _, _, _, _ => none
          | _ => none
        else none
    else parseStrLit rest (c :: acc)

/-- Leading run of decimal digit characters. -/
def takeDigits : List Char → List Char × List Char
  | [] => ([], [])
  | c :: rest =>
    if c.isDigit then
      let (ds, r) := takeDigits rest
      (c :: ds, r)
    else ([], c :: rest)

/-- Natural value of a digit list. -/
def digitsVal (ds : List Char) : Nat :=
  ds.foldl (fun a c => a * 10 + (c.toNat - 48)) 0

/-- Parser mode: a plain value, or the remaining elements of a partially
parsed array or object. -/
inductive PMode where
  | val
  | arrRest (acc : List Json)
  | objRest (acc : List (String × Json))

/-- Fuel-driven JSON parser; the fuel keeps the recursion structural and is
chosen generously enough by `parseJson` never to run out on its inputs. -/
def parseF : Nat → PMode → List Char → Option (Json × List Char)
  | 0, _, _ => none
  | fuel + 1, .val, cs =>
    match skipWs cs with
    | [] => none
    | 'n' :: 'u' :: 'l' :: 'l' :: rest => some (.null, rest)
    | 't' :: 'r' :: 'u' :: 'e' :: rest => some (.bool true, rest)
    | 'f' :: 'a' :: 'l' :: 's' :: 'e' :: rest => some (.bool false, rest)
    | '"' :: rest =>
      match parseStrLit rest [] with
      | some (s, r2) => some (.str s, r2)
      | none => none
    | '[' :: rest =>
      match skipWs rest with
      | ']' :: r2 => some (.arr [], r2)
      | r2 => parseF fuel (.arrRest []) r2
    | c :: rest =>
      if c = Char.ofNat 123 then
        match skipWs rest with
        | d :: r2 =>
          if d = Char.ofNat 125 then some (.obj [], r2)
          else parseF fuel (.objRest []) (d :: r2)
        | [] => none
      else if c = '-' then
        match takeDigits rest with
        | ([], _) => none
        | (ds, r2) => some (.num (-(Int.ofNat (digitsVal ds))), r2)
      else if c.isDigit then
        match takeDigits (c :: rest) with
        | (ds, r2) => some (.num (Int.ofNat (digitsVal ds)), r2)
      else none
  | fuel + 1, .arrRest acc, cs =>
    match parseF fuel .val cs with
    | none => none
    | some (v, rest) =>
      match skipWs rest with
      | ',' :: r2 => parseF fuel (.arrRest (acc ++ [v])) r2
      | ']' :: r2 => some (.arr (acc ++ [v]), r2)
      | _ => none
  | fuel + 1, .objRest acc, cs =>
    match skipWs cs with
    | '"' :: r1 =>
      match parseStrLit r1 [] with
      | none => none
      | some (k, r2) =>
        match skipWs r2 with
        | ':' :: r3 =>
          match parseF fuel .val r3 with
          | none => none
          | some (v, r4) =>
            match skipWs r4 with
            | ',' :: r5 => parseF fuel (.objRest (acc ++ [(k, v)])) r5
            | d :: r5 =>
              if d = Char.ofNat 125 then some (.obj (acc ++ [(k, v)]), r5)
              else none
            | [] => none
        | _ => none
    | _ => none

/-- Parse a whole JSON document, requiring only whitespace to remain. -/
def parseJson (s : String) : Option Json :=
  match parseF (4 * s.length + 16) .val s.data with
  | some (v, rest) => if skipWs rest = [] then some v else none
  | none => none

example : parseJson "[1, 2, 3]" = some (.arr [.num 1, .num 2, .num 3]) := rfl
example : parseJson "\x7b\"id\":7,\"zone\":\"z\"\x7d" =
    some (.obj [("id", .num 7), ("zone", .str "z")]) := rfl

/-- Look a field up in a JSON object's field list. -/
def jsonLookup (fields : List (String × Json)) (k : String) : Option Json :=
  (fields.find? (fun f => f.1 = k)).map (fun f => f.2)

/-- Decode a `u64`, as `serde` does for an integer field. -/
def decodeU64 : Json → Option Nat
  | .num n => if 0 ≤ n ∧ n < 18446744073709551616 then some n.toNat else none
  | _ => none

/-- Decode an `i32` field. -/
def decodeI32 : Json → Option Int
  | .num n => if -2147483648 ≤ n ∧ n < 2147483648 then some n else none
  | _ => none

/-- Decode a string field. -/
def decodeString : Json → Option String
  | .str s => some s
  | _ => none

/-- Decode a `Vec<u64>` response body. -/
def decodeU64List : Json → Option (List Nat)
  | .arr xs => xs.mapM decodeU64
  | _ => none

/-- Decode a `Vec<String>` response body. -/
def decodeStringList : Json → Option (List String)
  | .arr xs => xs.mapM decodeString
  | _ => none

/-! ## The effect monad

The library's request side is embedded as a deterministic computation over a
`World` — the local clock (a stream of `now()` readings) and the remote
server (a map from method, url and body to a response, `none` standing for a
transport failure). A `NetState` threads the number of clock readings taken
and the trace of requests issued. Rust panics (`unwrap` failures, wrapped
arithmetic that a debug build would abort on) are the distinguished
`RunResult.panic` outcome, kept apart from returned error values. -/

/-- Transport-level errors of the `reqwest` crate as the library observes
them: connection failure, a 4xx or 5xx status from `error_for_status`, or a
body that failed to decode. -/
inductive ReqError where
  | connect (url : String)
  | status (url : String) (code : Nat)
  | decode (url : String)
deriving Repr, DecidableEq

/-- The `OvhError` enumeration of `src/error.rs`. -/
inductive OvhError where
  | Reqwest (e : ReqError)
  | ParseIntError
  | TryFromInt
  | Serde
  | Generic (msg : String)
deriving Repr, DecidableEq

/-- Outcome of running an embedded computation. -/
inductive RunResult (α : Type) where
  | ok (a : α)
  | err (e : OvhError)
  | panic
deriving Repr, DecidableEq

/-- An HTTP request as issued by the embedded client. -/
structure Request where
  method : String
  url : String
  headers : List (String × String)
  body : String
deriving Repr, DecidableEq

/-- An HTTP response delivered by the environment. -/
structure Response where
  status : Nat
  body : String
deriving Repr, DecidableEq

/-- The world: local clock readings and the remote server. -/
structure World where
  clock : Nat → Nat
  env : String → String → String → Option Response

/-- Threaded state: clock readings taken so far and the request trace. -/
structure NetState where
  tick : Nat
  trace : List Request
deriving Repr

/-- The embedded effect monad. -/
def M (α : Type) : Type := World → NetState → RunResult α × NetState

/-- Return a pure value. -/
def M.pure {α : Type} (a : α) : M α := fun _ s => (.ok a, s)

/-- Sequence two computations. -/
def M.bind {α β : Type} (x : M α) (f : α → M β) : M β := fun w s =>
  match x w s with
  | (.ok a, s') => f a w s'
  | (.err e, s') => (.err e, s')
  | (.panic, s') => (.panic, s')

/-- Fail with an error value. -/
def M.err {α : Type} (e : OvhError) : M α := fun _ s => (.err e, s)

/-- Abort with a panic, the embedding of an `unwrap` failure. -/
def M.abort {α : Type} : M α := fun _ s => (.panic, s)

/-- Lift an `Option` whose `none` is a panic. -/
def liftPanic {α : Type} : Option α → M α
  | some a => M.pure a
  | none => M.abort

/-- Lift an already-computed result. -/
def liftRes {α : Type} (r : RunResult α) : M α := fun _ s => (r, s)

/-- The `now()` helper of `src/client.rs`: the next local clock reading,
a `u64` count of seconds since the epoch. -/
def mnow : M Nat := fun w s =>
  (.ok (w.clock s.tick % 18446744073709551616), { s with tick := s.tick + 1 })

/-- Issue one HTTP request: look the response up in the environment and
record the request in the trace; an absent response is a transport error. -/
def send (r : Request) : M Response := fun w s =>
  match w.env r.method r.url r.body with
  | some resp => (.ok resp, { s with trace := s.trace ++ [r] })
  | none => (.err (.Reqwest (.connect r.url)), { s with trace := s.trace ++ [r] })

/-! ## Header construction

`reqwest::header::HeaderValue::from_str` accepts exactly the strings all of
whose bytes are printable or the horizontal tab; the library calls it under
`unwrap`, so an invalid byte is a panic. -/

/-- Byte validity test of `HeaderValue`: tab, or at least 32 and not 127. -/
def validHeaderByte (b : Nat) : Bool :=
  b == 9 || (32 ≤ b && b != 127)

/-- A string is a valid header value when every UTF-8 byte is valid. -/
def validHeaderValue (s : String) : Bool :=
  (utf8Bytes s).all validHeaderByte

/-- Insert into a header map, replacing an existing entry of the same name
as `HeaderMap::insert` does. -/
def headerInsert (hs : List (String × String)) (name value : String) :
    List (String × String) :=
  if hs.any (fun h => h.1 = name) then
    hs.map (fun h => if h.1 = name then (name, value) else h)
  else hs ++ [(name, value)]

/-- The `insert_sensitive_header` helper of `src/client.rs`:
`HeaderValue::from_str(value).unwrap()` then insert; `none` is the panic of
the `unwrap` on an invalid value. The sensitivity flag only affects logging
and is not modelled. -/
def insert_sensitive_header (hs : List (String × String))
    (name value : String) : Option (List (String × String)) :=
  if validHeaderValue value then some (headerInsert hs name value) else none

/-! ## The client -/

/-- Client state: resolved endpoint base and the three credentials
(`src/client.rs`, `struct OvhClient`; the transport handle holds no state
that the embedding needs). -/
structure OvhClient where
  endpoint : String
  application_key : String
  application_secret : String
  consumer_key : String
deriving Repr, DecidableEq

/-- The fixed `ENDPOINTS` table of `src/client.rs`. -/
def ENDPOINTS (e : String) : Option String :=
  if e = "ovh-eu" then some "https://eu.api.ovh.com/1.0"
  else if e = "ovh-us" then some "https://api.us.ovhcloud.com/1.0"
  else if e = "ovh-ca" then some "https://ca.api.ovh.com/1.0"
  else if e = "kimsufi-eu" then some "https://eu.api.kimsufi.com/1.0"
  else if e = "kimsufi-ca" then some "https://ca.api.kimsufi.com/1.0"
  else if e = "soyoustart-eu" then some "https://eu.api.soyoustart.com/1.0"
  else if e = "soyoustart-ca" then some "https://ca.api.soyoustart.com/1.0"
  else none

/-- `OvhClient::new`: resolve the endpoint (`None` on an unknown identifier)
and store the credentials. No request is issued. -/
def OvhClient.new (endpoint application_key application_secret consumer_key :
    String) : Option OvhClient :=
  (ENDPOINTS endpoint).map
    (fun base => ⟨base, application_key, application_secret, consumer_key⟩)

/-- `OvhClient::signature`: join application secret, consumer key, method,
url, body and timestamp with `+`, SHA-1 the result, prefix the tag. -/
def OvhClient.signature (c : OvhClient) (url timestamp method body : String) :
    String :=
  "$1$" ++ sha1Hex (String.intercalate "+"
    [c.application_secret, c.consumer_key, method, url, body, timestamp])

/-- `OvhClient::url`: endpoint base followed by the path. -/
def OvhClient.url (c : OvhClient) (path : String) : String :=
  c.endpoint ++ path

/-- `OvhClient::default_headers`: the application key under
`X-Ovh-Application`, built with an `unwrap` that panics on an invalid
header value. -/
def OvhClient.default_headers (c : OvhClient) :
    Option (List (String × String)) :=
  if validHeaderValue c.application_key then
    some [("X-Ovh-Application", c.application_key)]
  else none

/-- `OvhClient::get_noauth`: a GET carrying only the default headers. -/
def OvhClient.get_noauth (c : OvhClient) (path : String) : M Response :=
  let url := c.url path
  M.bind (liftPanic c.default_headers) fun headers =>
  send ⟨"GET", url, headers, ""⟩

/-- Rust's `parse::<u64>()`: optional leading sign, at least one digit, no
other characters, value within the `u64` range. -/
def parseU64 (s : String) : Option Nat :=
  let cs := match s.data with
    | '+' :: rest => rest
    | cs => cs
  if cs = [] then none
  else if cs.all Char.isDigit then
    let n := digitsVal cs
    if n < 18446744073709551616 then some n else none
  else none

/-- `OvhClient::time_delta`: one unauthenticated GET of `/auth/time`, parse
the body as a `u64`, subtract it from `now()` — a release-build `u64`
subtraction that wraps modulo `2 ^ 64` when the server time is ahead (a
debug build would abort there) — and convert the difference to `i64`, which
fails with `TryFromInt` for values of `2 ^ 63` and above. -/
def OvhClient.time_delta (c : OvhClient) : M Int :=
  M.bind (c.get_noauth "/auth/time") fun resp =>
  match parseU64 resp.body with
  | none => M.err .ParseIntError
  | some server_time =>
    M.bind mnow fun now =>
    let d := (now + 18446744073709551616 - server_time) % 18446744073709551616
    if d < 9223372036854775808 then M.pure (Int.ofNat d) else M.err .TryFromInt

/-- Wrapping `i64` addition, as a release build computes `now + time_delta`. -/
def i64wrapAdd (a b : Int) : Int :=
  (a + b + 9223372036854775808) % 18446744073709551616 - 9223372036854775808

/-- `OvhClient::gen_headers`: default headers, a fresh `time_delta`
measurement, the signed timestamp, the signature, the three sensitive
headers, and a content type when the body is non-empty. -/
def OvhClient.gen_headers (c : OvhClient) (url method body : String) :
    M (List (String × String)) :=
  M.bind (liftPanic c.default_headers) fun headers =>
  M.bind c.time_delta fun time_delta =>
  M.bind mnow fun nowRaw =>
  match (if nowRaw < 9223372036854775808 then some (Int.ofNat nowRaw)
         else none) with
  | none => M.err .TryFromInt
  | some now =>
    let timestamp := intDec (i64wrapAdd now time_delta)
    let signature := c.signature url timestamp method body
    M.bind (liftPanic (insert_sensitive_header headers "X-Ovh-Consumer"
      c.consumer_key)) fun h1 =>
    M.bind (liftPanic (insert_sensitive_header h1 "X-Ovh-Timestamp"
      timestamp)) fun h2 =>
    M.bind (liftPanic (insert_sensitive_header h2 "X-Ovh-Signature"
      signature)) fun h3 =>
    if body = "" then M.pure h3
    else
      M.bind (liftPanic (if validHeaderValue "application/json; charset=utf-8"
        then some (headerInsert h3 "Content-Type"
          "application/json; charset=utf-8")
        else none)) fun h4 =>
      M.pure h4

/-- `OvhClient::get`: signed GET. -/
def OvhClient.get (c : OvhClient) (path : String) : M Response :=
  let url := c.url path
  M.bind (c.gen_headers url "GET" "") fun headers =>
  send ⟨"GET", url, headers, ""⟩

/-- `OvhClient::delete`: signed DELETE. -/
def OvhClient.delete (c : OvhClient) (path : String) : M Response :=
  let url := c.url path
  M.bind (c.gen_headers url "DELETE" "") fun headers =>
  send ⟨"DELETE", url, headers, ""⟩

/-- `OvhClient::post`: signed POST. The `body` argument is the
`serde_json::to_string` rendering of the payload, which the library's two
payload types always serialize successfully. -/
def OvhClient.post (c : OvhClient) (path body : String) : M Response :=
  let url := c.url path
  M.bind (c.gen_headers url "POST" body) fun headers =>
  send ⟨"POST", url, headers, body⟩

/-- `OvhClient::put`: signed PUT. -/
def OvhClient.put (c : OvhClient) (path body : String) : M Response :=
  let url := c.url path
  M.bind (c.gen_headers url "PUT" body) fun headers =>
  send ⟨"PUT", url, headers, body⟩

/-- Modelled from the spec: `post_empty` is called by
`OvhDnsRecord::refresh_zone` but its definition is absent from
`src/src/client.rs`; the spec describes it as a POST with an empty body,
used for the zone-refresh/commit action. -/
def OvhClient.post_empty (c : OvhClient) (path : String) : M Response :=
  let url := c.url path
  M.bind (c.gen_headers url "POST" "") fun headers =>
  send ⟨"POST", url, headers, ""⟩

/-- `Response::error_for_status` of `reqwest`: an error exactly on the 4xx
and 5xx ranges, carrying the request url and the code. -/
def errorForStatus (url : String) (r : Response) : RunResult Response :=
  if 400 ≤ r.status ∧ r.status ≤ 599 then .err (.Reqwest (.status url r.status))
  else .ok r

/-- Body decoding of `Response::json::<T>`: parse the body and decode it,
a failure being a decode error carrying the url. -/
def respJson {α : Type} (dec : Json → Option α) (url : String)
    (r : Response) : M α :=
  match (parseJson r.body).bind dec with
  | some a => M.pure a
  | none => M.err (.Reqwest (.decode url))

/-! ## DNS records (`src/dns_record.rs`) -/

/-- The enumerated record types. -/
inductive DnsRecordType where
  | A | AAAA | CAA | CNAME | DKIM | DMARC | DNAME | LOC | MX
  | NAPTR | NS | PTR | SPF | SRV | SSHFP | TLSA | TXT
deriving Repr, DecidableEq

/-- Name of a record type, both its `Debug` rendering (used in the filter
query string) and its `serde` string form. -/
def DnsRecordType.name : DnsRecordType → String
  | .A => "A"
  | .AAAA => "AAAA"
  | .CAA => "CAA"
  | .CNAME => "CNAME"
  | .DKIM => "DKIM"
  | .DMARC => "DMARC"
  | .DNAME => "DNAME"
  | .LOC => "LOC"
  | .MX => "MX"
  | .NAPTR => "NAPTR"
  | .NS => "NS"
  | .PTR => "PTR"
  | .SPF => "SPF"
  | .SRV => "SRV"
  | .SSHFP => "SSHFP"
  | .TLSA => "TLSA"
  | .TXT => "TXT"

/-- Decode a record type from its `serde` string form. -/
def decodeRecordType (j : Json) : Option DnsRecordType :=
  match j with
  | .str s =>
    if s = "A" then some .A
    else if s = "AAAA" then some .AAAA
    else if s = "CAA" then some .CAA
    else if s = "CNAME" then some .CNAME
    else if s = "DKIM" then some .DKIM
    else if s = "DMARC" then some .DMARC
    else if s = "DNAME" then some .DNAME
    else if s = "LOC" then some .LOC
    else if s = "MX" then some .MX
    else if s = "NAPTR" then some .NAPTR
    else if s = "NS" then some .NS
    else if s = "PTR" then some .PTR
    else if s = "SPF" then some .SPF
    else if s = "SRV" then some .SRV
    else if s = "SSHFP" then some .SSHFP
    else if s = "TLSA" then some .TLSA
    else if s = "TXT" then some .TXT
    else none
  | _ => none

/-- A DNS record: numeric id, zone, type, optional subdomain, target,
optional TTL (`struct OvhDnsRecord`). -/
structure OvhDnsRecord where
  id : Nat
  zone : String
  record_type : DnsRecordType
  subdomain : Option String
  target : String
  ttl : Option Int
deriving Repr, DecidableEq

/-- Decode an `OvhDnsRecord` from a JSON object as its `serde` derive does:
`id`, `zone`, `fieldType`, `target` required, `subDomain` and `ttl`
optional (absent or null decode to `none`), unknown fields ignored, the TTL
checked against the `i32` range. -/
def decodeDnsRecord (j : Json) : Option OvhDnsRecord :=
  match j with
  | .obj fs =>
    match jsonLookup fs "id" with
    | none => none
    | some jid =>
      match decodeU64 jid with
      | none => none
      | some id =>
        match jsonLookup fs "zone" with
        | none => none
        | some jz =>
          match decodeString jz with
          | none => none
          | some zone =>
            match jsonLookup fs "fieldType" with
            | none => none
            | some jt =>
              match decodeRecordType jt with
              | none => none
              | some rt =>
                match (match jsonLookup fs "subDomain" with
                       | none => some none
                       | some .null => some none
                       | some (.str s) => some (some s)
                       | some _ => none) with
                | none => none
                | some sub =>
                  match jsonLookup fs "target" with
                  | none => none
                  | some jtg =>
                    match decodeString jtg with
                    | none => none
                    | some target =>
                      match (match jsonLookup fs "ttl" with
                             | none => some none
                             | some .null => some none
                             | some jv =>
                               match decodeI32 jv with
                               | some v => some (some v)
                               | none => none) with
                      | none => none
                      | some ttl =>
                        some ⟨id, zone, rt, sub, target, ttl⟩
  | _ => none

/-- `serde_json::to_string` of the `OvhDnsRecordCreate` payload, fields in
declaration order, optional fields rendered as `null`. -/
def serializeDnsCreate (rt : DnsRecordType) (sub : Option String)
    (target : String) (ttl : Option Int) : String :=
  "\x7b\"fieldType\":\"" ++ rt.name ++ "\",\"subDomain\":" ++
    (match sub with
     | none => "null"
     | some s => jsonStrLit s) ++
    ",\"target\":" ++ jsonStrLit target ++ ",\"ttl\":" ++
    (match ttl with
     | none => "null"
     | some n => intDec n) ++ "\x7d"

/-- `OvhDnsRecord::fqn`: subdomain, dot, zone, trailing dot — or just the
zone and a trailing dot without a subdomain. -/
def OvhDnsRecord.fqn (r : OvhDnsRecord) : String :=
  match r.subdomain with
  | some subdomain => subdomain ++ "." ++ r.zone ++ "."
  | none => r.zone ++ "."

/-- `OvhDnsRecord::normalize`: an empty-string subdomain and a zero TTL
become absent. -/
def OvhDnsRecord.normalize (r : OvhDnsRecord) : OvhDnsRecord :=
  let r1 := if r.subdomain = some "" then { r with subdomain := none } else r
  if r1.ttl = some 0 then { r1 with ttl := none } else r1

/-- `OvhDnsRecord::get`: signed GET of the record, status check, decode,
normalize. -/
def OvhDnsRecord.get (c : OvhClient) (zone_name : String) (id : Nat) :
    M OvhDnsRecord :=
  let path := "/domain/zone/" ++ zone_name ++ "/record/" ++ natDec id
  M.bind (c.get path) fun resp =>
  M.bind (liftRes (errorForStatus (c.url path) resp)) fun resp2 =>
  M.bind (respJson decodeDnsRecord (c.url path) resp2) fun record =>
  M.pure record.normalize

/-- `OvhDnsRecord::list_ids_filtered`: the collection GET with the optional
`fieldType` and `subDomain` filters as query parameters, status check,
decode of the id vector. -/
def OvhDnsRecord.list_ids_filtered (c : OvhClient) (zone : String)
    (record_type : Option DnsRecordType) (subdomain : Option String) :
    M (List Nat) :=
  let options :=
    (match record_type with
     | some t => ["fieldType=" ++ t.name]
     | none => []) ++
    (match subdomain with
     | some s => ["subDomain=" ++ s]
     | none => [])
  let path :=
    if options = [] then "/domain/zone/" ++ zone ++ "/record"
    else "/domain/zone/" ++ zone ++ "/record?" ++ String.intercalate "&" options
  M.bind (c.get path) fun resp =>
  M.bind (liftRes (errorForStatus (c.url path) resp)) fun resp2 =>
  respJson decodeU64List (c.url path) resp2

/-- `OvhDnsRecord::list_ids`: the unfiltered id listing. -/
def OvhDnsRecord.list_ids (c : OvhClient) (zone : String) : M (List Nat) :=
  OvhDnsRecord.list_ids_filtered c zone none none

/-- The `futures::future::join_all` fan-out: run every computation, keep
every outcome. A panic in one computation propagates. -/
def joinAll {α : Type} : List (M α) → M (List (RunResult α))
  | [] => M.pure []
  | f :: fs => fun w s =>
    match f w s with
    | (.panic, s') => (.panic, s')
    | (.ok a, s') =>
      match joinAll fs w s' with
      | (.ok rs, s'') => (.ok (.ok a :: rs), s'')
      | other => other
    | (.err e, s') =>
      match joinAll fs w s' with
      | (.ok rs, s'') => (.ok (.err e :: rs), s'')
      | other => other

/-- `collect::<Result<Vec<_>, _>>()`: all values, or the first error in
order. -/
def collectResults {α : Type} : List (RunResult α) → RunResult (List α)
  | [] => .ok []
  | .ok a :: rest =>
    match collectResults rest with
    | .ok xs => .ok (a :: xs)
    | .err e => .err e
    | .panic => .panic
  | .err e :: _ => .err e
  | .panic :: _ => .panic

/-- `filter_map(|c| c.ok())`: keep the successes, drop the failures. -/
def filterOk {α : Type} (rs : List (RunResult α)) : List α :=
  rs.foldr
    (fun r acc =>
      match r with
      | .ok a => a :: acc
      | _ => acc) []

/-- `OvhDnsRecord::list_filtered`: ids, one detail fetch per id through
`join_all`, collected into a single result that propagates the first fetch
error. -/
def OvhDnsRecord.list_filtered (c : OvhClient) (zone : String)
    (record_type : Option DnsRecordType) (subdomain : Option String) :
    M (List OvhDnsRecord) :=
  M.bind (OvhDnsRecord.list_ids_filtered c zone record_type subdomain)
    fun ids =>
  M.bind (joinAll (ids.map (fun id => OvhDnsRecord.get c zone id)))
    fun results =>
  liftRes (collectResults results)

/-- `OvhDnsRecord::list`: the unfiltered listing. -/
def OvhDnsRecord.list (c : OvhClient) (zone : String) : M (List OvhDnsRecord) :=
  OvhDnsRecord.list_filtered c zone none none

/-- `OvhDnsRecord::refresh_zone`: empty-body POST of the zone's refresh
endpoint, status check. -/
def OvhDnsRecord.refresh_zone (c : OvhClient) (zone : String) : M Unit :=
  let path := "/domain/zone/" ++ zone ++ "/refresh"
  M.bind (c.post_empty path) fun resp =>
  M.bind (liftRes (errorForStatus (c.url path) resp)) fun _ =>
  M.pure ()

/-- `OvhDnsRecord::create`: POST the creatable fields, status check, decode
and normalize the created record, then refresh the zone when `apply_change`
is set. -/
def OvhDnsRecord.create (c : OvhClient) (subdomain : Option String)
    (zone : String) (record_type : DnsRecordType) (ttl : Option Int)
    (target : String) (apply_change : Bool) : M OvhDnsRecord :=
  let path := "/domain/zone/" ++ zone ++ "/record"
  let payload := serializeDnsCreate record_type subdomain target ttl
  M.bind (c.post path payload) fun resp =>
  M.bind (liftRes (errorForStatus (c.url path) resp)) fun resp2 =>
  M.bind (respJson decodeDnsRecord (c.url path) resp2) fun decoded =>
  let record := decoded.normalize
  if apply_change then
    M.bind (OvhDnsRecord.refresh_zone c zone) fun _ => M.pure record
  else
    M.pure record

/-- `OvhDnsRecord::delete`: DELETE the record, status check, then refresh
the zone when `apply_change` is set. -/
def OvhDnsRecord.delete (c : OvhClient) (zone : String) (id : Nat)
    (apply_change : Bool) : M Unit :=
  let path := "/domain/zone/" ++ zone ++ "/record/" ++ natDec id
  M.bind (c.delete path) fun resp =>
  M.bind (liftRes (errorForStatus (c.url path) resp)) fun _ =>
  if apply_change then
    M.bind (OvhDnsRecord.refresh_zone c zone) fun _ => M.pure ()
  else
    M.pure ()

/-! ## Mail redirections (`src/email_redir.rs`) -/

/-- A mail redirection: string id, source and destination addresses. The
source's field names `from` and `to` are Lean keywords, hence `fromAddr`
and `toAddr`. -/
structure OvhMailRedir where
  id : String
  fromAddr : String
  toAddr : String
deriving Repr, DecidableEq

/-- Decode an `OvhMailRedir` from a JSON object: `id`, `from`, `to`, all
required strings. -/
def decodeMailRedir (j : Json) : Option OvhMailRedir :=
  match j with
  | .obj fs =>
    match jsonLookup fs "id" with
    | none => none
    | some jid =>
      match decodeString jid with
      | none => none
      | some id =>
        match jsonLookup fs "from" with
        | none => none
        | some jf =>
          match decodeString jf with
          | none => none
          | some f =>
            match jsonLookup fs "to" with
            | none => none
            | some jt =>
              match decodeString jt with
              | none => none
              | some t => some ⟨id, f, t⟩
  | _ => none

/-- `serde_json::to_string` of the `OvhMailRedirCreate` payload. -/
def serializeMailRedirCreate (f t : String) (local_copy : Bool) : String :=
  "\x7b\"from\":" ++ jsonStrLit f ++ ",\"to\":" ++ jsonStrLit t ++
    ",\"localCopy\":" ++ (if local_copy then "true" else "false") ++ "\x7d"

/-- `OvhMailRedir::get_redir`: signed GET of one redirection and decode —
with no status check before decoding. -/
def OvhMailRedir.get_redir (c : OvhClient) (domain id : String) :
    M OvhMailRedir :=
  let path := "/email/domain/" ++ domain ++ "/redirection/" ++ id
  M.bind (c.get path) fun resp =>
  respJson decodeMailRedir (c.url path) resp

/-- `OvhMailRedir::list`: the id listing with status check, one
`get_redir` per id through `join_all`, and `filter_map(|c| c.ok())` —
failed fetches are dropped from the result. -/
def OvhMailRedir.list (c : OvhClient) (domain : String) :
    M (List OvhMailRedir) :=
  let path := "/email/domain/" ++ domain ++ "/redirection"
  M.bind (c.get path) fun resp =>
  M.bind (liftRes (errorForStatus (c.url path) resp)) fun resp2 =>
  M.bind (respJson decodeStringList (c.url path) resp2) fun ids =>
  M.bind (joinAll (ids.map (fun id => OvhMailRedir.get_redir c domain id)))
    fun results =>
  M.pure (filterOk results)

/-- `OvhMailRedir::create`: POST the payload; the raw response is returned
with no status check. -/
def OvhMailRedir.create (c : OvhClient) (domain f t : String)
    (local_copy : Bool) : M Response :=
  c.post ("/email/domain/" ++ domain ++ "/redirection")
    (serializeMailRedirCreate f t local_copy)

/-- `OvhMailRedir::delete`: DELETE the redirection; the raw response is
returned. -/
def OvhMailRedir.delete (c : OvhClient) (domain id : String) : M Response :=
  c.delete ("/email/domain/" ++ domain ++ "/redirection/" ++ id)

/-! ## Concrete scenario data

Clients and worlds used to evaluate the embedded operations on concrete
inputs. `cB` uses the short endpoint base `"B"` to keep signature messages
small; claims about construction use the real table. -/

/-- The '+'-joined signature input message. -/
def sigMessage (sec ck method url body ts : String) : String :=
  String.intercalate "+" [sec, ck, method, url, body, ts]

/-- A client with a short endpoint base. -/
def cB : OvhClient := ⟨"B", "ak", "as", "ck"⟩

/-- A client as produced by `OvhClient.new "ovh-eu"`. -/
def cEu : OvhClient := ⟨"https://eu.api.ovh.com/1.0", "ak", "as", "ck"⟩

/-- A client whose application key holds a newline, invalid in a header. -/
def cBadApp : OvhClient := ⟨"B", "a\nk", "as", "ck"⟩

/-- A client whose consumer key holds a newline, invalid in a header. -/
def cBadCk : OvhClient := ⟨"B", "ak", "as", "c\nk"⟩

/-- World for the construction-versus-request claim: server time `1000`,
local clock `1005`, a data endpoint at `/x`. -/
def wC2 : World :=
  ⟨fun _ => 1005,
   fun _ u _ =>
     if u = "https://eu.api.ovh.com/1.0/auth/time" then some ⟨200, "1000"⟩
     else if u = "https://eu.api.ovh.com/1.0/x" then some ⟨200, "[]"⟩
     else none⟩

/-- World where the server clock is ahead: local `1000`, server `1005`. -/
def w3bad : World :=
  ⟨fun _ => 1000,
   fun _ u _ => if u = "B/auth/time" then some ⟨200, "1005"⟩ else none⟩

/-- World for the timestamp scenario: local `1010`, server `1000`. -/
def w3 : World :=
  ⟨fun _ => 1010,
   fun _ u _ =>
     if u = "B/auth/time" then some ⟨200, "1000"⟩
     else if u = "B/x" then some ⟨200, "ok"⟩
     else none⟩

/-- World where the local clock is ahead of the server by five seconds. -/
def w3pos : World :=
  ⟨fun _ => 1005,
   fun _ u _ => if u = "B/auth/time" then some ⟨200, "1000"⟩ else none⟩

/-- Mail world: two redirection ids, the second detail fetch failing with a
500 whose body decodes to nothing. -/
def wMail : World :=
  ⟨fun _ => 1000,
   fun _ u _ =>
     if u = "B/auth/time" then some ⟨200, "1000"⟩
     else if u = "B/email/domain/d/redirection" then some ⟨200, "[\"1\",\"2\"]"⟩
     else if u = "B/email/domain/d/redirection/1" then
       some ⟨200, "\x7b\"id\":\"1\",\"from\":\"a@x\",\"to\":\"b@x\"\x7d"⟩
     else if u = "B/email/domain/d/redirection/2" then some ⟨500, "oops"⟩
     else none⟩

/-- DNS world: one record id whose body carries the server's unset
sentinels (empty subdomain, zero TTL). -/
def wDns : World :=
  ⟨fun _ => 1000,
   fun _ u _ =>
     if u = "B/auth/time" then some ⟨200, "1000"⟩
     else if u = "B/domain/zone/z/record" then some ⟨200, "[1]"⟩
     else if u = "B/domain/zone/z/record/1" then
       some ⟨200, "\x7b\"id\":1,\"zone\":\"z\",\"fieldType\":\"A\",\"subDomain\":\"\",\"target\":\"t\",\"ttl\":0\x7d"⟩
     else none⟩

/-- Response body of the create endpoint in the create/refresh worlds. -/
def recBodyC6 : String :=
  "\x7b\"id\":7,\"zone\":\"z\",\"fieldType\":\"A\",\"subDomain\":\"www\",\"target\":\"t\",\"ttl\":60\x7d"

/-- Create/refresh world, each of the two mutating endpoints either
succeeding with 200 or failing with 500. -/
def wC6 (createFails refreshFails : Bool) : World :=
  ⟨fun _ => 1000,
   fun _ u _ =>
     if u = "B/auth/time" then some ⟨200, "1000"⟩
     else if u = "B/domain/zone/z/record" then
       some ⟨if createFails then 500 else 200, recBodyC6⟩
     else if u = "B/domain/zone/z/refresh" then
       some ⟨if refreshFails then 500 else 200, ""⟩
     else none⟩

/-- World whose refresh endpoint answers 304, a status outside both the
2xx range and the 4xx/5xx range that `error_for_status` rejects. -/
def w304 : World :=
  ⟨fun _ => 1000,
   fun _ u _ =>
     if u = "B/auth/time" then some ⟨200, "1000"⟩
     else if u = "B/domain/zone/z/refresh" then some ⟨304, ""⟩
     else none⟩

/-- Initial threaded state. -/
def st0 : NetState := ⟨0, []⟩

/-- The record `wDns` serves, after normalization. -/
def recC7val : OvhDnsRecord := ⟨1, "z", .A, none, "t", none⟩

/-- The redirection `wMail` serves for id 1. -/
def redir1 : OvhMailRedir := ⟨"1", "a@x", "b@x"⟩

/-- A computation only ever extends the request trace. -/
def TraceExt {α : Type} (m : M α) : Prop :=
  ∀ w s, ∃ t, ((m w s).2).trace = s.trace ++ t

/-- A computation never panics. -/
def NoPanic {α : Type} (m : M α) : Prop :=
  ∀ w s, (m w s).1 ≠ .panic

/-- Body of length `n`, used to exhibit distinct request bodies. -/
def bodyRep (n : Nat) : String := String.mk (List.replicate n 'a')

/-- The unauthenticated server-time request a client issues. -/
def timeReq (c : OvhClient) : Request :=
  ⟨"GET", c.endpoint ++ "/auth/time",
   [("X-Ovh-Application", c.application_key)], ""⟩

/-! ## Helper lemmas -/

/-- Joining six strings with `+` is the explicit concatenation with a `+`
between each pair of fields. -/
theorem intercalate_six (a b c d e f : String) :
    String.intercalate "+" [a, b, c, d, e, f] =
      a ++ "+" ++ b ++ "+" ++ c ++ "+" ++ d ++ "+" ++ e ++ "+" ++ f := by
  simp [String.intercalate, String.intercalate.go, String.append_assoc]

/-- The hex rendering has forty characters. -/
theorem toHex40_length (n : Nat) : (toHex40 n).length = 40 := by
  simp [toHex40, String.length]

/-- Every character of the hex rendering is a lower-case hex digit. -/
theorem toHex40_chars (n : Nat) :
    ∀ ch ∈ (toHex40 n).data, ch ∈ ("0123456789abcdef").data := by
  intro ch hch
  simp only [toHex40] at hch
  obtain ⟨i, _, rfl⟩ := List.mem_map.mp hch
  have hv : n / 2 ^ (4 * (39 - i)) % 16 < 16 := Nat.mod_lt _ (by norm_num)
  revert hv
  generalize n / 2 ^ (4 * (39 - i)) % 16 = v
  revert v
  decide

/-! ## C1: the signature format -/

/-- C1: for every application secret, consumer key, method, url, body and
timestamp string, the computed signature is the literal tag `$1$` followed
by the lower-case hexadecimal SHA-1 digest of the fields joined in order
with a literal `+` between each pair. -/
theorem C1_signature_format (c : OvhClient) (method url body timestamp : String) :
    c.signature url timestamp method body =
      "$1$" ++ sha1Hex (c.application_secret ++ "+" ++ c.consumer_key ++ "+" ++
        method ++ "+" ++ url ++ "+" ++ body ++ "+" ++ timestamp) ∧
    sha1Hex (c.application_secret ++ "+" ++ c.consumer_key ++ "+" ++
        method ++ "+" ++ url ++ "+" ++ body ++ "+" ++ timestamp) =
      toHex40 (sha1Digest (utf8Bytes (c.application_secret ++ "+" ++
        c.consumer_key ++ "+" ++ method ++ "+" ++ url ++ "+" ++ body ++ "+" ++
        timestamp))) ∧
    (sha1Hex (c.application_secret ++ "+" ++ c.consumer_key ++ "+" ++
        method ++ "+" ++ url ++ "+" ++ body ++ "+" ++ timestamp)).length = 40 ∧
    (∀ ch ∈ (sha1Hex (c.application_secret ++ "+" ++ c.consumer_key ++ "+" ++
        method ++ "+" ++ url ++ "+" ++ body ++ "+" ++
        timestamp)).data, ch ∈ ("0123456789abcdef").data) := by
  refine ⟨?_, rfl, toHex40_length _, toHex40_chars _⟩
  unfold OvhClient.signature
  rw [intercalate_six]

/-! ## C5: the endpoint table -/

/-- C5: client construction succeeds exactly for the seven fixed endpoint
identifiers, each resolving to its documented base URL, and fails for every
other identifier. -/
theorem C5_endpoint_table :
    (∀ e k s ck, (OvhClient.new e k s ck).isSome = true ↔
      (e = "ovh-eu" ∨ e = "ovh-us" ∨ e = "ovh-ca" ∨ e = "kimsufi-eu" ∨
       e = "kimsufi-ca" ∨ e = "soyoustart-eu" ∨ e = "soyoustart-ca")) ∧
    (∀ k s ck,
      OvhClient.new "ovh-eu" k s ck =
        some ⟨"https://eu.api.ovh.com/1.0", k, s, ck⟩ ∧
      OvhClient.new "ovh-us" k s ck =
        some ⟨"https://api.us.ovhcloud.com/1.0", k, s, ck⟩ ∧
      OvhClient.new "ovh-ca" k s ck =
        some ⟨"https://ca.api.ovh.com/1.0", k, s, ck⟩ ∧
      OvhClient.new "kimsufi-eu" k s ck =
        some ⟨"https://eu.api.kimsufi.com/1.0", k, s, ck⟩ ∧
      OvhClient.new "kimsufi-ca" k s ck =
        some ⟨"https://ca.api.kimsufi.com/1.0", k, s, ck⟩ ∧
      OvhClient.new "soyoustart-eu" k s ck =
        some ⟨"https://eu.api.soyoustart.com/1.0", k, s, ck⟩ ∧
      OvhClient.new "soyoustart-ca" k s ck =
        some ⟨"https://ca.api.soyoustart.com/1.0", k, s, ck⟩ ∧
      OvhClient.new "not-a-real-endpoint" k s ck = none) := by
  constructor
  · intro e k s ck
    unfold OvhClient.new ENDPOINTS
    split_ifs <;> simp_all
  · intro k s ck
    exact ⟨rfl, rfl, rfl, rfl, rfl, rfl, rfl, rfl⟩

/-! ## C8: the fully qualified name -/

/-- C8: `fqn` yields the zone with a trailing dot when the subdomain is
absent, and subdomain, dot, zone, trailing dot otherwise; in particular
`example.com` gives `example.com.` and `www`/`example.com` gives
`www.example.com.`. -/
theorem C8_fqn_format :
    ∀ (id : Nat) (zone : String) (rt : DnsRecordType) (sub target : String)
      (ttl : Option Int),
    OvhDnsRecord.fqn ⟨id, zone, rt, none, target, ttl⟩ = zone ++ "." ∧
    OvhDnsRecord.fqn ⟨id, zone, rt, some sub, target, ttl⟩ =
      sub ++ "." ++ zone ++ "." ∧
    OvhDnsRecord.fqn ⟨id, "example.com", rt, none, target, ttl⟩ =
      "example.com." ∧
    OvhDnsRecord.fqn ⟨id, "example.com", rt, some "www", target, ttl⟩ =
      "www.example.com." := by
  intro id zone rt sub target ttl
  exact ⟨rfl, rfl, rfl, rfl⟩

/-! ## Run-inversion lemmas -/

/-- Invert a successful `bind`: both stages succeeded. -/
theorem M.bind_ok_inv {α β : Type} {x : M α} {f : α → M β} {w : World}
    {s : NetState} {b : β} {s' : NetState}
    (h : M.bind x f w s = (.ok b, s')) :
    ∃ a s1, x w s = (.ok a, s1) ∧ f a w s1 = (.ok b, s') := by
  unfold M.bind at h
  cases hx : x w s with
  | mk r s1 =>
    rw [hx] at h
    cases r with
    | ok a => exact ⟨a, s1, rfl, h⟩
    | err e => simp at h
    | panic => simp at h

/-- Invert a successful `pure`. -/
theorem M.pure_ok_inv {α : Type} {a b : α} {w : World} {s s' : NetState}
    (h : M.pure a w s = (.ok b, s')) : b = a ∧ s' = s := by
  unfold M.pure at h
  simp at h
  exact ⟨h.1.symm, h.2.symm⟩

/-- Invert a successful `liftRes`. -/
theorem liftRes_ok_inv {α : Type} {r : RunResult α} {b : α} {w : World}
    {s s' : NetState} (h : liftRes r w s = (.ok b, s')) :
    r = .ok b ∧ s' = s := by
  unfold liftRes at h
  simp at h
  exact ⟨h.1, h.2.symm⟩

/-! ## Normalization lemmas and C7 -/

/-- Unfolded form of `normalize`. -/
theorem normalize_fields (r : OvhDnsRecord) :
    r.normalize = ⟨r.id, r.zone, r.record_type,
      (if r.subdomain = some "" then none else r.subdomain), r.target,
      (if r.ttl = some 0 then none else r.ttl)⟩ := by
  cases r with
  | mk id zone rt sub target ttl =>
    simp only [OvhDnsRecord.normalize]
    split_ifs <;> simp_all

/-- A normalized record never carries the server's unset sentinels. -/
theorem normalize_no_sentinel (r : OvhDnsRecord) :
    (r.normalize).subdomain ≠ some "" ∧ (r.normalize).ttl ≠ some 0 := by
  rw [normalize_fields]
  constructor
  · dsimp only
    split_ifs with h
    · simp
    · exact h
  · dsimp only
    split_ifs with h
    · simp
    · exact h

/-- C7: `normalize` maps an empty-string subdomain and a zero TTL to
absent and passes every other value through unchanged, and every record
returned by `get` or by `create` has been normalized, so it never carries
`some ""` or `some 0`. -/
theorem C7_normalization :
    (∀ r : OvhDnsRecord, r.normalize = ⟨r.id, r.zone, r.record_type,
      (if r.subdomain = some "" then none else r.subdomain), r.target,
      (if r.ttl = some 0 then none else r.ttl)⟩) ∧
    (∀ (w : World) (s : NetState) (c : OvhClient) (zone : String) (id : Nat)
      (rec : OvhDnsRecord) (s' : NetState),
      OvhDnsRecord.get c zone id w s = (.ok rec, s') →
      rec.subdomain ≠ some "" ∧ rec.ttl ≠ some 0) ∧
    (∀ (w : World) (s : NetState) (c : OvhClient) (sub : Option String)
      (zone : String) (rt : DnsRecordType) (ttl : Option Int) (target : String)
      (ac : Bool) (rec : OvhDnsRecord) (s' : NetState),
      OvhDnsRecord.create c sub zone rt ttl target ac w s = (.ok rec, s') →
      rec.subdomain ≠ some "" ∧ rec.ttl ≠ some 0) := by
  refine ⟨normalize_fields, ?_, ?_⟩
  · intro w s c zone id rec s' h
    simp only [OvhDnsRecord.get] at h
    obtain ⟨resp, s1, _, h⟩ := M.bind_ok_inv h
    obtain ⟨resp2, s2, _, h⟩ := M.bind_ok_inv h
    obtain ⟨decoded, s3, _, h⟩ := M.bind_ok_inv h
    obtain ⟨hrec, _⟩ := M.pure_ok_inv h
    rw [hrec]
    exact normalize_no_sentinel decoded
  · intro w s c sub zone rt ttl target ac rec s' h
    simp only [OvhDnsRecord.create] at h
    obtain ⟨resp, s1, _, h⟩ := M.bind_ok_inv h
    obtain ⟨resp2, s2, _, h⟩ := M.bind_ok_inv h
    obtain ⟨decoded, s3, _, h⟩ := M.bind_ok_inv h
    cases ac with
    | true =>
      simp only [if_true] at h
      obtain ⟨u, s4, _, h⟩ := M.bind_ok_inv h
      obtain ⟨hrec, _⟩ := M.pure_ok_inv h
      rw [hrec]
      exact normalize_no_sentinel decoded
    | false =>
      simp only [Bool.false_eq_true, if_false] at h
      obtain ⟨hrec, _⟩ := M.pure_ok_inv h
      rw [hrec]
      exact normalize_no_sentinel decoded

/-- Witness for C7: in the `wDns` world the served record carries the
sentinels `""` and `0`, and `get` hands back the normalized record, whose
subdomain and TTL are absent. -/
theorem C7_witness :
    (OvhDnsRecord.get cB "z" 1 wDns st0).1 = .ok recC7val ∧
    recC7val.subdomain ≠ some "" ∧ recC7val.ttl ≠ some 0 := by
  have h1 : (OvhDnsRecord.get cB "z" 1 wDns st0).1 = .ok recC7val := by decide
  have hfull : OvhDnsRecord.get cB "z" 1 wDns st0 =
      (.ok recC7val, (OvhDnsRecord.get cB "z" 1 wDns st0).2) := by
    rw [← h1]
  exact ⟨h1, C7_normalization.2.1 wDns st0 cB "z" 1 recC7val _ hfull⟩

/-! ## C3: the time delta -/

/-- C3 (evaluation of the code at the claim's inputs): when the local clock
reads 1005 and the server answers `1000`, `time_delta` returns 5; but when
the server clock is ahead — local 1000, server body `1005` — the `u64`
subtraction wraps and the `i64` conversion fails, so `time_delta` returns
the `TryFromInt` error instead of the claimed −5. In the end-to-end
scenario (server stub answering `1000`, signed GET at local time 1010) the
skew is measured during the request itself, so the carried
`X-Ovh-Timestamp` is 1020, not the claimed 1015. -/
theorem C3_time_delta_eval :
    (OvhClient.time_delta cB w3pos st0).1 = .ok 5 ∧
    (OvhClient.time_delta cB w3bad st0).1 = .err .TryFromInt ∧
    ((OvhClient.get cB "/x" w3 st0).2.trace.map
      (fun r => r.headers.lookup "X-Ovh-Timestamp")) = [none, some "1020"] := by
  refine ⟨by decide, by decide, by decide⟩

/-! ## C4: fan-out error policy of the list operations -/

/-- A successful `joinAll` returns one outcome per computation. -/
theorem joinAll_ok_length {α : Type} (fs : List (M α)) :
    ∀ (w : World) (s : NetState) (rs : List (RunResult α)) (s' : NetState),
    joinAll fs w s = (.ok rs, s') → rs.length = fs.length := by
  induction fs with
  | nil =>
    intro w s rs s' h
    obtain ⟨h1, _⟩ := M.pure_ok_inv h
    rw [h1]
    rfl
  | cons f fs ih =>
    intro w s rs s' h
    unfold joinAll at h
    rcases hf : f w s with ⟨r, s1⟩
    rw [hf] at h
    cases r with
    | panic => simp at h
    | ok a =>
      dsimp only at h
      rcases hj : joinAll fs w s1 with ⟨rj, s2⟩
      rw [hj] at h
      cases rj with
      | ok rs' =>
        simp at h
        rw [← h.1]
        simp [ih w s1 rs' s2 (by rw [hj])]
      | err e => simp at h
      | panic => simp at h
    | err e =>
      dsimp only at h
      rcases hj : joinAll fs w s1 with ⟨rj, s2⟩
      rw [hj] at h
      cases rj with
      | ok rs' =>
        simp at h
        rw [← h.1]
        simp [ih w s1 rs' s2 (by rw [hj])]
      | err e2 => simp at h
      | panic => simp at h

/-- A successful collect had one value per outcome, and every outcome was a
success. -/
theorem collectResults_ok {α : Type} (rs : List (RunResult α)) :
    ∀ xs, collectResults rs = .ok xs →
      xs.length = rs.length ∧ ∀ r ∈ rs, ∃ a, r = .ok a := by
  induction rs with
  | nil =>
    intro xs h
    simp [collectResults] at h
    simp [← h]
  | cons r rest ih =>
    intro xs h
    cases r with
    | ok a =>
      unfold collectResults at h
      rcases hc : collectResults rest with ys | e
      · rw [hc] at h
        simp at h
        obtain ⟨h1, h2⟩ := ih ys hc
        constructor
        · rw [← h]
          simp [h1]
        · intro r hr
          rcases List.mem_cons.mp hr with h3 | h3
          · exact ⟨a, h3⟩
          · exact h2 r h3
      · rw [hc] at h
        simp at h
      · rw [hc] at h
        simp at h
    | err e => simp [collectResults] at h
    | panic => simp [collectResults] at h

/-- Keeping only the successes never lengthens the list. -/
theorem filterOk_length_le {α : Type} (rs : List (RunResult α)) :
    (filterOk rs).length ≤ rs.length := by
  induction rs with
  | nil => simp [filterOk]
  | cons r rest ih =>
    cases r <;> simp [filterOk] at ih ⊢ <;> omega

/-- C4 (amended): the DNS listing collects the per-id fetches into a single
result — a successful return has exactly one entity per listed id and every
fetch succeeded, a failed fetch failing the whole call — while the
mail-redirection listing filters the fetch outcomes down to the successes,
silently dropping failed ids. -/
theorem C4_list_error_policy :
    (∀ (w : World) (s : NetState) (c : OvhClient) (zone : String)
       (rt : Option DnsRecordType) (sub : Option String)
       (vs : List OvhDnsRecord) (s' : NetState),
      OvhDnsRecord.list_filtered c zone rt sub w s = (.ok vs, s') →
      ∃ ids s1 results s2,
        OvhDnsRecord.list_ids_filtered c zone rt sub w s = (.ok ids, s1) ∧
        joinAll (ids.map (fun id => OvhDnsRecord.get c zone id)) w s1 =
          (.ok results, s2) ∧
        collectResults results = .ok vs ∧
        (∀ r ∈ results, ∃ a, r = .ok a) ∧
        vs.length = ids.length) ∧
    (∀ (w : World) (s : NetState) (c : OvhClient) (domain : String)
       (vs : List OvhMailRedir) (s' : NetState),
      OvhMailRedir.list c domain w s = (.ok vs, s') →
      ∃ resp sa resp2 sb ids s1 results s2,
        c.get ("/email/domain/" ++ domain ++ "/redirection") w s =
          (.ok resp, sa) ∧
        liftRes (errorForStatus
          (c.url ("/email/domain/" ++ domain ++ "/redirection")) resp) w sa =
          (.ok resp2, sb) ∧
        respJson decodeStringList
          (c.url ("/email/domain/" ++ domain ++ "/redirection")) resp2 w sb =
          (.ok ids, s1) ∧
        joinAll (ids.map (fun id => OvhMailRedir.get_redir c domain id)) w s1 =
          (.ok results, s2) ∧
        vs = filterOk results ∧
        vs.length ≤ ids.length) := by
  constructor
  · intro w s c zone rt sub vs s' h
    simp only [OvhDnsRecord.list_filtered] at h
    obtain ⟨ids, s1, h1, h⟩ := M.bind_ok_inv h
    obtain ⟨results, s2, h2, h⟩ := M.bind_ok_inv h
    obtain ⟨h3, _⟩ := liftRes_ok_inv h
    have hlen := joinAll_ok_length _ w s1 results s2 h2
    obtain ⟨hclen, hall⟩ := collectResults_ok results vs h3
    refine ⟨ids, s1, results, s2, h1, h2, h3, hall, ?_⟩
    rw [hclen, hlen, List.length_map]
  · intro w s c domain vs s' h
    simp only [OvhMailRedir.list] at h
    obtain ⟨resp, sa, h1, h⟩ := M.bind_ok_inv h
    obtain ⟨resp2, sb, h2, h⟩ := M.bind_ok_inv h
    obtain ⟨ids, s1, h3, h⟩ := M.bind_ok_inv h
    obtain ⟨results, s2, h4, h⟩ := M.bind_ok_inv h
    obtain ⟨h5, _⟩ := M.pure_ok_inv h
    have hlen := joinAll_ok_length _ w s1 results s2 h4
    refine ⟨resp, sa, resp2, sb, ids, s1, results, s2, h1, h2, h3, h4, h5, ?_⟩
    rw [h5]
    calc (filterOk results).length ≤ results.length := filterOk_length_le results
      _ = ids.length := by rw [hlen, List.length_map]

/-- Counterexample for C4: in the `wMail` world the collection endpoint
lists two ids and the second detail fetch fails with a 500, yet the
mail-redirection listing returns a successful one-element result — the
failed id is silently dropped, no error reaches the caller. The trace shows
both detail fetches were attempted. -/
theorem C4_counterexample :
    (OvhMailRedir.list cB "d" wMail st0).1 = .ok [redir1] ∧
    (OvhMailRedir.list cB "d" wMail st0).2.trace.map (fun r => r.url) =
      ["B/auth/time", "B/email/domain/d/redirection",
       "B/auth/time", "B/email/domain/d/redirection/1",
       "B/auth/time", "B/email/domain/d/redirection/2"] := by
  exact ⟨by decide, by decide⟩

/-- Witness for C4: the amended policy theorem applied to the concrete
worlds — the DNS listing over one id returns exactly one entity, the mail
listing over two ids returns the one success. -/
theorem C4_witness :
    (∃ ids s1 results s2,
      OvhDnsRecord.list_ids_filtered cB "z" none none wDns st0 =
        (.ok ids, s1) ∧
      joinAll (ids.map (fun id => OvhDnsRecord.get cB "z" id)) wDns s1 =
        (.ok results, s2) ∧
      collectResults results = .ok [recC7val] ∧
      (∀ r ∈ results, ∃ a, r = .ok a) ∧
      ([recC7val] : List OvhDnsRecord).length = ids.length) ∧
    (∃ resp sa resp2 sb ids s1 results s2,
      cB.get ("/email/domain/" ++ "d" ++ "/redirection") wMail st0 =
        (.ok resp, sa) ∧
      liftRes (errorForStatus
        (cB.url ("/email/domain/" ++ "d" ++ "/redirection")) resp) wMail sa =
        (.ok resp2, sb) ∧
      respJson decodeStringList
        (cB.url ("/email/domain/" ++ "d" ++ "/redirection")) resp2 wMail sb =
        (.ok ids, s1) ∧
      joinAll (ids.map (fun id => OvhMailRedir.get_redir cB "d" id)) wMail s1 =
        (.ok results, s2) ∧
      [redir1] = filterOk results ∧
      ([redir1] : List OvhMailRedir).length ≤ ids.length) := by
  constructor
  · have h1 : (OvhDnsRecord.list_filtered cB "z" none none wDns st0).1 =
        .ok [recC7val] := by decide
    exact C4_list_error_policy.1 wDns st0 cB "z" none none [recC7val] _
      (by rw [← h1])
  · have h1 : (OvhMailRedir.list cB "d" wMail st0).1 = .ok [redir1] := by
      decide
    exact C4_list_error_policy.2 wMail st0 cB "d" [redir1] _ (by rw [← h1])

/-! ## C2: clock-skew measurement point -/

/-- Pure returns extend the trace by nothing. -/
theorem traceExt_pure {α : Type} (a : α) : TraceExt (M.pure a) :=
  fun _ s => ⟨[], by simp [M.pure]⟩

/-- Errors extend the trace by nothing. -/
theorem traceExt_err {α : Type} (e : OvhError) : TraceExt (M.err e : M α) :=
  fun _ s => ⟨[], by simp [M.err]⟩

/-- Panics extend the trace by nothing. -/
theorem traceExt_abort {α : Type} : TraceExt (M.abort : M α) :=
  fun _ s => ⟨[], by simp [M.abort]⟩

/-- Lifted results extend the trace by nothing. -/
theorem traceExt_liftRes {α : Type} (r : RunResult α) : TraceExt (liftRes r) :=
  fun _ s => ⟨[], by simp [liftRes]⟩

/-- Lifted options extend the trace by nothing. -/
theorem traceExt_liftPanic {α : Type} (o : Option α) :
    TraceExt (liftPanic o) := by
  cases o with
  | none => exact traceExt_abort
  | some a => exact traceExt_pure a

/-- Clock readings extend the trace by nothing. -/
theorem traceExt_mnow : TraceExt mnow :=
  fun _ s => ⟨[], by simp [mnow]⟩

/-- Sending extends the trace by that one request. -/
theorem traceExt_send (r : Request) : TraceExt (send r) := by
  intro w s
  refine ⟨[r], ?_⟩
  unfold send
  cases henv : w.env r.method r.url r.body <;> simp [henv]

/-- Trace extension is preserved by sequencing. -/
theorem traceExt_bind {α β : Type} {x : M α} {f : α → M β}
    (hx : TraceExt x) (hf : ∀ a, TraceExt (f a)) : TraceExt (M.bind x f) := by
  intro w s
  unfold M.bind
  rcases hrun : x w s with ⟨r, s1⟩
  obtain ⟨t1, ht1⟩ := hx w s
  rw [hrun] at ht1
  cases r with
  | ok a =>
    obtain ⟨t2, ht2⟩ := hf a w s1
    have ht1e : s1.trace = s.trace ++ t1 := ht1
    exact ⟨t1 ++ t2, by simp [ht2, ht1e, List.append_assoc]⟩
  | err e => exact ⟨t1, ht1⟩
  | panic => exact ⟨t1, ht1⟩

/-- The unauthenticated GET extends the trace. -/
theorem traceExt_get_noauth (c : OvhClient) (path : String) :
    TraceExt (c.get_noauth path) := by
  unfold OvhClient.get_noauth
  exact traceExt_bind (traceExt_liftPanic _) (fun h => traceExt_send _)

/-- The time measurement extends the trace. -/
theorem traceExt_time_delta (c : OvhClient) : TraceExt c.time_delta := by
  unfold OvhClient.time_delta
  refine traceExt_bind (traceExt_get_noauth c _) (fun resp => ?_)
  cases hp : parseU64 resp.body with
  | none => exact traceExt_err _
  | some server_time =>
    refine traceExt_bind traceExt_mnow (fun now => ?_)
    dsimp only
    split
    · exact traceExt_pure _
    · exact traceExt_err _

/-- Header generation extends the trace. -/
theorem traceExt_gen_headers (c : OvhClient) (url method body : String) :
    TraceExt (c.gen_headers url method body) := by
  unfold OvhClient.gen_headers
  refine traceExt_bind (traceExt_liftPanic _) (fun headers => ?_)
  refine traceExt_bind (traceExt_time_delta c) (fun td => ?_)
  refine traceExt_bind traceExt_mnow (fun nowRaw => ?_)
  dsimp only
  split
  · exact traceExt_err _
  · refine traceExt_bind (traceExt_liftPanic _) (fun h1 => ?_)
    refine traceExt_bind (traceExt_liftPanic _) (fun h2 => ?_)
    refine traceExt_bind (traceExt_liftPanic _) (fun h3 => ?_)
    split
    · exact traceExt_pure _
    · exact traceExt_bind (traceExt_liftPanic _) (fun h4 => traceExt_pure _)

/-- If the first stage's first new request is `q` and the continuation only
extends the trace, the composite's first new request is `q`. -/
theorem bind_first_req {α β : Type} {x : M α} {f : α → M β} {w : World}
    {s : NetState} {q : Request}
    (hx : ∃ t0, ((x w s).2).trace = s.trace ++ q :: t0)
    (hf : ∀ a, TraceExt (f a)) :
    ∃ t, ((M.bind x f w s).2).trace = s.trace ++ q :: t := by
  obtain ⟨t0, ht0⟩ := hx
  unfold M.bind
  rcases hrun : x w s with ⟨r, s1⟩
  rw [hrun] at ht0
  cases r with
  | ok a =>
    obtain ⟨t2, ht2⟩ := hf a w s1
    have ht0e : s1.trace = s.trace ++ q :: t0 := ht0
    exact ⟨t0 ++ t2, by simp [ht2, ht0e, List.append_assoc]⟩
  | err e => exact ⟨t0, ht0⟩
  | panic => exact ⟨t0, ht0⟩

/-- With a valid application key, the unauthenticated time GET is sent as
exactly the `timeReq` request. -/
theorem get_noauth_time_trace (c : OvhClient)
    (hak : validHeaderValue c.application_key = true) (w : World)
    (s : NetState) :
    ((c.get_noauth "/auth/time") w s).2.trace = s.trace ++ [timeReq c] := by
  unfold OvhClient.get_noauth
  have hd : c.default_headers = some [("X-Ovh-Application", c.application_key)] := by
    simp [OvhClient.default_headers, hak]
  rw [hd]
  show (send _ w s).2.trace = _
  unfold send
  cases henv : w.env "GET" (c.url "/auth/time") "" <;> simp [henv, timeReq] <;> rfl

/-- With a valid application key, the first request of `time_delta` is the
unauthenticated time GET. -/
theorem time_delta_first (c : OvhClient)
    (hak : validHeaderValue c.application_key = true) (w : World)
    (s : NetState) :
    ∃ t, ((c.time_delta) w s).2.trace = s.trace ++ timeReq c :: t := by
  unfold OvhClient.time_delta
  refine bind_first_req ⟨[], by rw [get_noauth_time_trace c hak w s]⟩
    (fun resp => ?_)
  cases hp : parseU64 resp.body with
  | none => exact traceExt_err _
  | some server_time =>
    refine traceExt_bind traceExt_mnow (fun now => ?_)
    dsimp only
    split
    · exact traceExt_pure _
    · exact traceExt_err _

/-- With a valid application key, the first request of header generation is
the unauthenticated time GET — the skew is measured inside every signed
request. -/
theorem gen_headers_first (c : OvhClient) (url method body : String)
    (hak : validHeaderValue c.application_key = true) (w : World)
    (s : NetState) :
    ∃ t, ((c.gen_headers url method body) w s).2.trace =
      s.trace ++ timeReq c :: t := by
  unfold OvhClient.gen_headers
  have hd : c.default_headers = some [("X-Ovh-Application", c.application_key)] := by
    simp [OvhClient.default_headers, hak]
  rw [hd]
  show ∃ t, ((M.bind c.time_delta _) w s).2.trace = _
  refine bind_first_req (time_delta_first c hak w s) (fun td => ?_)
  refine traceExt_bind traceExt_mnow (fun nowRaw => ?_)
  dsimp only
  split
  · exact traceExt_err _
  · refine traceExt_bind (traceExt_liftPanic _) (fun h1 => ?_)
    refine traceExt_bind (traceExt_liftPanic _) (fun h2 => ?_)
    refine traceExt_bind (traceExt_liftPanic _) (fun h3 => ?_)
    split
    · exact traceExt_pure _
    · exact traceExt_bind (traceExt_liftPanic _) (fun h4 => traceExt_pure _)

/-- C2 (amended): the client records no clock skew at construction —
`OvhClient::new` is a pure function issuing no request — and instead every
signed operation (get, post, put, delete) measures the skew afresh: its
first issued request is the unauthenticated GET of the server-time
endpoint, performed during header generation. -/
theorem C2_skew_remeasured_per_request (c : OvhClient) (path body : String)
    (w : World) (s : NetState)
    (hak : validHeaderValue c.application_key = true) :
    (∃ t, ((c.get path) w s).2.trace = s.trace ++ timeReq c :: t) ∧
    (∃ t, ((c.delete path) w s).2.trace = s.trace ++ timeReq c :: t) ∧
    (∃ t, ((c.post path body) w s).2.trace = s.trace ++ timeReq c :: t) ∧
    (∃ t, ((c.put path body) w s).2.trace = s.trace ++ timeReq c :: t) := by
  refine ⟨?_, ?_, ?_, ?_⟩
  · unfold OvhClient.get
    exact bind_first_req (gen_headers_first c _ _ _ hak w s)
      (fun h => traceExt_send _)
  · unfold OvhClient.delete
    exact bind_first_req (gen_headers_first c _ _ _ hak w s)
      (fun h => traceExt_send _)
  · unfold OvhClient.post
    exact bind_first_req (gen_headers_first c _ _ _ hak w s)
      (fun h => traceExt_send _)
  · unfold OvhClient.put
    exact bind_first_req (gen_headers_first c _ _ _ hak w s)
      (fun h => traceExt_send _)

/-- Counterexample for C2: a client constructed through `OvhClient::new`
measures no skew at construction, and its signed GET then issues the
unauthenticated time request — construction performs no time
synchronization and the skew is re-measured inside the signed request,
contrary to the claim. -/
theorem C2_counterexample :
    OvhClient.new "ovh-eu" "ak" "as" "ck" = some cEu ∧
    ((cEu.get "/x") wC2 st0).2.trace.map (fun r => (r.method, r.url)) =
      [("GET", "https://eu.api.ovh.com/1.0/auth/time"),
       ("GET", "https://eu.api.ovh.com/1.0/x")] := by
  exact ⟨rfl, by decide⟩

/-- Witness for C2: the amended theorem applied to the concrete client and
world. -/
theorem C2_witness :
    ∃ t, ((cEu.get "/x") wC2 st0).2.trace = st0.trace ++ timeReq cEu :: t :=
  (C2_skew_remeasured_per_request cEu "/x" "" wC2 st0 (by decide)).1

/-! ## C6: create and the zone refresh -/

/-- Counterexample for C6: with `apply_change = false` the create operation
returns the created record without ever issuing the zone-refresh commit
call — the claim's unconditional "then issues the zone-refresh commit
call" does not hold — and a 304 response from the refresh endpoint, though
not a 2xx, is accepted as success by `error_for_status`, which only rejects
4xx and 5xx. -/
theorem C6_counterexample :
    (OvhDnsRecord.create cB (some "www") "z" .A (some 60) "t" false
      (wC6 false false) st0).1 = .ok ⟨7, "z", .A, some "www", "t", some 60⟩ ∧
    (OvhDnsRecord.create cB (some "www") "z" .A (some 60) "t" false
      (wC6 false false) st0).2.trace.map (fun r => r.url) =
      ["B/auth/time", "B/domain/zone/z/record"] ∧
    (OvhDnsRecord.refresh_zone cB "z" w304 st0).1 = .ok () := by
  exact ⟨by decide, by decide, by decide⟩

/-- C6 (amended): with `apply_change` set, create POSTs the creatable
fields as the serde payload and then POSTs the zone-refresh endpoint with
an empty body; a 4xx/5xx from the create call surfaces as the status error
carrying the create URL with no refresh attempted, and a 4xx/5xx from the
refresh call surfaces as the status error carrying the refresh URL while
the trace already holds the accepted record POST — the partial
created-but-uncommitted state is detectable from the URL in the returned
error. -/
theorem C6_create_refresh_policy :
    ∀ createFails refreshFails : Bool,
    (OvhDnsRecord.create cB (some "www") "z" .A (some 60) "t" true
        (wC6 createFails refreshFails) st0).1 =
      (if createFails then
        .err (.Reqwest (.status "B/domain/zone/z/record" 500))
      else if refreshFails then
        .err (.Reqwest (.status "B/domain/zone/z/refresh" 500))
      else .ok ⟨7, "z", .A, some "www", "t", some 60⟩) ∧
    (OvhDnsRecord.create cB (some "www") "z" .A (some 60) "t" true
        (wC6 createFails refreshFails) st0).2.trace.map
        (fun r => (r.method, r.url)) =
      (if createFails then
        [("GET", "B/auth/time"), ("POST", "B/domain/zone/z/record")]
      else
        [("GET", "B/auth/time"), ("POST", "B/domain/zone/z/record"),
         ("GET", "B/auth/time"), ("POST", "B/domain/zone/z/refresh")]) ∧
    (OvhDnsRecord.create cB (some "www") "z" .A (some 60) "t" true
        (wC6 createFails refreshFails) st0).2.trace.map (fun r => r.body) =
      (if createFails then
        ["", serializeDnsCreate .A (some "www") "t" (some 60)]
      else
        ["", serializeDnsCreate .A (some "www") "t" (some 60), "", ""]) := by
  decide

/-! ## C9: determinism and field sensitivity of the signature -/

/-- One block step keeps every state word below `2 ^ 32`. -/
theorem sha1Block_lt (s : Sha1State) (blk : List Nat) :
    (sha1Block s blk).h0 < 4294967296 ∧ (sha1Block s blk).h1 < 4294967296 ∧
    (sha1Block s blk).h2 < 4294967296 ∧ (sha1Block s blk).h3 < 4294967296 ∧
    (sha1Block s blk).h4 < 4294967296 := by
  simp only [sha1Block]
  refine ⟨?_, ?_, ?_, ?_, ?_⟩ <;> exact Nat.mod_lt _ (by norm_num)

/-- The block loop keeps every state word below `2 ^ 32`. -/
theorem sha1Loop_lt (fuel : Nat) :
    ∀ (s : Sha1State) (bytes : List Nat),
    s.h0 < 4294967296 → s.h1 < 4294967296 → s.h2 < 4294967296 →
    s.h3 < 4294967296 → s.h4 < 4294967296 →
    (sha1Loop fuel s bytes).h0 < 4294967296 ∧
    (sha1Loop fuel s bytes).h1 < 4294967296 ∧
    (sha1Loop fuel s bytes).h2 < 4294967296 ∧
    (sha1Loop fuel s bytes).h3 < 4294967296 ∧
    (sha1Loop fuel s bytes).h4 < 4294967296 := by
  induction fuel with
  | zero =>
    intro s bytes h0 h1 h2 h3 h4
    cases bytes <;> exact ⟨h0, h1, h2, h3, h4⟩
  | succ n ih =>
    intro s bytes h0 h1 h2 h3 h4
    cases bytes with
    | nil => exact ⟨h0, h1, h2, h3, h4⟩
    | cons b rest =>
      have hb := sha1Block_lt s (b :: rest.take 63)
      exact ih _ _ hb.1 hb.2.1 hb.2.2.1 hb.2.2.2.1 hb.2.2.2.2

/-- A nibble-chain bound: appending a word below the base keeps the value
below the next power. -/
theorem mulAddLt {a x b : Nat} (ha : a < x) (hb : b < 4294967296) :
    a * 4294967296 + b < x * 4294967296 := by
  calc a * 4294967296 + b < a * 4294967296 + 4294967296 := by omega
    _ = (a + 1) * 4294967296 := by ring
    _ ≤ x * 4294967296 := Nat.mul_le_mul_right _ (by omega)

/-- The SHA-1 digest is a 160-bit value. -/
theorem sha1Digest_lt (msg : List Nat) : sha1Digest msg < 2 ^ 160 := by
  unfold sha1Digest sha1Final
  have hinit : sha1Init.h0 < 4294967296 ∧ sha1Init.h1 < 4294967296 ∧
      sha1Init.h2 < 4294967296 ∧ sha1Init.h3 < 4294967296 ∧
      sha1Init.h4 < 4294967296 := by decide
  obtain ⟨h0, h1, h2, h3, h4⟩ :=
    sha1Loop_lt _ sha1Init (sha1Pad msg) hinit.1 hinit.2.1 hinit.2.2.1
      hinit.2.2.2.1 hinit.2.2.2.2
  have s1 := mulAddLt h0 h1
  have s2 := mulAddLt s1 h2
  have s3 := mulAddLt s2 h3
  have s4 := mulAddLt s3 h4
  calc _ < 4294967296 * 4294967296 * 4294967296 * 4294967296 * 4294967296 := s4
    _ = 2 ^ 160 := by norm_num

/-- Counterexample for C9: it is not the case that changing the request
body always changes the signature — the digest space is finite while the
body space is not, so two distinct bodies share a signature. -/
theorem C9_counterexample :
    ¬ (∀ (c : OvhClient) (url ts method b b' : String),
        b ≠ b' → c.signature url ts method b ≠ c.signature url ts method b') := by
  intro hclaim
  obtain ⟨n, m, hnm, heq⟩ := Finite.exists_ne_map_eq_of_infinite
    (fun n : Nat =>
      (⟨sha1Digest (utf8Bytes (sigMessage "as" "ck" "GET" "u" (bodyRep n) "t")),
        sha1Digest_lt _⟩ : Fin (2 ^ 160)))
  have hval := congrArg Fin.val heq
  simp only at hval
  have hb : bodyRep n ≠ bodyRep m := by
    intro h
    apply hnm
    have hlen := congrArg (fun s : String => s.data.length) h
    simpa [bodyRep] using hlen
  have hsig : cB.signature "u" "t" "GET" (bodyRep n) =
      cB.signature "u" "t" "GET" (bodyRep m) := by
    show "$1$" ++ sha1Hex (sigMessage "as" "ck" "GET" "u" (bodyRep n) "t") =
      "$1$" ++ sha1Hex (sigMessage "as" "ck" "GET" "u" (bodyRep m) "t")
    unfold sha1Hex
    rw [hval]
  exact hclaim cB "u" "t" "GET" (bodyRep n) (bodyRep m) hb hsig

/-- Strings with equal character lists are equal. -/
theorem stringDataInj {s t : String} (h : s.data = t.data) : s = t := by
  cases s
  cases t
  simp_all

/-- Character-list form of the signature input message. -/
theorem sigMessage_data (sec ck m u b t : String) :
    (sigMessage sec ck m u b t).data =
      sec.data ++ '+' :: (ck.data ++ '+' :: (m.data ++ '+' ::
        (u.data ++ '+' :: (b.data ++ '+' :: t.data)))) := by
  unfold sigMessage
  rw [intercalate_six]
  have hplus : ("+" : String).data = ['+'] := rfl
  simp [String.data_append, hplus, List.append_assoc]

/-- C9 (amended): the signature is deterministic — it depends only on the
six signed fields, so any two clients agreeing on secret and consumer key
produce identical signatures for identical requests — and changing any
single one of the six fields while fixing the other five always changes
the SHA-1 input message; it does not always change the signature itself,
the digest space being finite (see the counterexample). -/
theorem C9_deterministic_and_field_sensitive :
    (∀ (c c' : OvhClient) (url ts method body : String),
      c.application_secret = c'.application_secret →
      c.consumer_key = c'.consumer_key →
      c.signature url ts method body = c'.signature url ts method body) ∧
    (∀ sec sec' ck m u b t : String, sec ≠ sec' →
      sigMessage sec ck m u b t ≠ sigMessage sec' ck m u b t) ∧
    (∀ sec ck ck' m u b t : String, ck ≠ ck' →
      sigMessage sec ck m u b t ≠ sigMessage sec ck' m u b t) ∧
    (∀ sec ck m m' u b t : String, m ≠ m' →
      sigMessage sec ck m u b t ≠ sigMessage sec ck m' u b t) ∧
    (∀ sec ck m u u' b t : String, u ≠ u' →
      sigMessage sec ck m u b t ≠ sigMessage sec ck m u' b t) ∧
    (∀ sec ck m u b b' t : String, b ≠ b' →
      sigMessage sec ck m u b t ≠ sigMessage sec ck m u b' t) ∧
    (∀ sec ck m u b t t' : String, t ≠ t' →
      sigMessage sec ck m u b t ≠ sigMessage sec ck m u b t') := by
  refine ⟨?_, ?_, ?_, ?_, ?_, ?_, ?_⟩
  · intro c c' url ts method body h1 h2
    unfold OvhClient.signature
    rw [h1, h2]
  · intro sec sec' ck m u b t hne heq
    apply hne
    have hd := congrArg String.data heq
    rw [sigMessage_data, sigMessage_data] at hd
    exact stringDataInj (List.append_cancel_right hd)
  · intro sec ck ck' m u b t hne heq
    apply hne
    have hd := congrArg String.data heq
    rw [sigMessage_data, sigMessage_data] at hd
    have h1 := List.append_cancel_left hd
    injection h1 with _ h2
    exact stringDataInj (List.append_cancel_right h2)
  · intro sec ck m m' u b t hne heq
    apply hne
    have hd := congrArg String.data heq
    rw [sigMessage_data, sigMessage_data] at hd
    have h1 := List.append_cancel_left hd
    injection h1 with _ h2
    have h3 := List.append_cancel_left h2
    injection h3 with _ h4
    exact stringDataInj (List.append_cancel_right h4)
  · intro sec ck m u u' b t hne heq
    apply hne
    have hd := congrArg String.data heq
    rw [sigMessage_data, sigMessage_data] at hd
    have h1 := List.append_cancel_left hd
    injection h1 with _ h2
    have h3 := List.append_cancel_left h2
    injection h3 with _ h4
    have h5 := List.append_cancel_left h4
    injection h5 with _ h6
    exact stringDataInj (List.append_cancel_right h6)
  · intro sec ck m u b b' t hne heq
    apply hne
    have hd := congrArg String.data heq
    rw [sigMessage_data, sigMessage_data] at hd
    have h1 := List.append_cancel_left hd
    injection h1 with _ h2
    have h3 := List.append_cancel_left h2
    injection h3 with _ h4
    have h5 := List.append_cancel_left h4
    injection h5 with _ h6
    have h7 := List.append_cancel_left h6
    injection h7 with _ h8
    exact stringDataInj (List.append_cancel_right h8)
  · intro sec ck m u b t t' hne heq
    apply hne
    have hd := congrArg String.data heq
    rw [sigMessage_data, sigMessage_data] at hd
    have h1 := List.append_cancel_left hd
    injection h1 with _ h2
    have h3 := List.append_cancel_left h2
    injection h3 with _ h4
    have h5 := List.append_cancel_left h4
    injection h5 with _ h6
    have h7 := List.append_cancel_left h6
    injection h7 with _ h8
    have h9 := List.append_cancel_left h8
    injection h9 with _ h10
    exact stringDataInj h10

/-- Witness for C9: two clients sharing secret and consumer key sign a
concrete request identically, and two sign messages differing only in the
secret differ. -/
theorem C9_witness :
    (OvhClient.mk "X" "otherKey" "as" "ck").signature "u" "t" "GET" "bd" =
      cB.signature "u" "t" "GET" "bd" ∧
    sigMessage "a" "ck" "GET" "u" "bd" "t" ≠
      sigMessage "b" "ck" "GET" "u" "bd" "t" := by
  constructor
  · exact C9_deterministic_and_field_sensitive.1
      ⟨"X", "otherKey", "as", "ck"⟩ cB "u" "t" "GET" "bd" rfl rfl
  · exact C9_deterministic_and_field_sensitive.2.1
      "a" "b" "ck" "GET" "u" "bd" "t" (by decide)

/-! ## C10: header building panics versus totality -/

/-- A byte at least 32 and other than 127 is a valid header byte. -/
theorem validHeaderByte_true {b : Nat} (h1 : 32 ≤ b) (h2 : b ≠ 127) :
    validHeaderByte b = true := by
  simp [validHeaderByte]
  omega

/-- The round trip through `Char.ofNat` for small code points. -/
theorem charToNatOfNat {n : Nat} (h : n < 55296) : (Char.ofNat n).toNat = n := by
  unfold Char.ofNat Char.toNat
  split
  · rfl
  · rename_i hv
    exact absurd (Or.inl (by omega)) hv

/-- Auxiliary form over a character list: printable characters encode to
valid header bytes. -/
theorem utf8AllValid (cs : List Char)
    (h : ∀ c ∈ cs, 32 ≤ c.toNat ∧ c.toNat ≠ 127) :
    (cs.foldr (fun c acc => utf8Char c ++ acc) []).all validHeaderByte = true := by
  induction cs with
  | nil => rfl
  | cons c cs ih =>
    simp only [List.foldr_cons, List.all_append, Bool.and_eq_true]
    refine ⟨?_, ih (fun d hd => h d (List.mem_cons_of_mem _ hd))⟩
    have hc := h c (List.mem_cons_self _ _)
    unfold utf8Char
    dsimp only
    split_ifs with h1 h2 h3
    · simp only [List.all_cons, List.all_nil, Bool.and_true]
      exact validHeaderByte_true hc.1 hc.2
    · simp only [List.all_cons, List.all_nil, Bool.and_true, Bool.and_eq_true]
      exact ⟨validHeaderByte_true (by omega) (by omega),
        validHeaderByte_true (by omega) (by omega)⟩
    · simp only [List.all_cons, List.all_nil, Bool.and_true, Bool.and_eq_true]
      exact ⟨validHeaderByte_true (by omega) (by omega),
        validHeaderByte_true (by omega) (by omega),
        validHeaderByte_true (by omega) (by omega)⟩
    · simp only [List.all_cons, List.all_nil, Bool.and_true, Bool.and_eq_true]
      exact ⟨validHeaderByte_true (by omega) (by omega),
        validHeaderByte_true (by omega) (by omega),
        validHeaderByte_true (by omega) (by omega),
        validHeaderByte_true (by omega) (by omega)⟩

/-- A string all of whose characters are printable (code point at least 32,
not 127) is a valid header value, whatever non-ASCII it contains. -/
theorem validHeaderValue_of_chars (s : String)
    (h : ∀ c ∈ s.data, 32 ≤ c.toNat ∧ c.toNat ≠ 127) :
    validHeaderValue s = true := by
  unfold validHeaderValue utf8Bytes
  exact utf8AllValid s.data h

/-- Every character the decimal accumulator produces is a digit or comes
from the initial accumulator. -/
theorem natDecAux_chars (fuel : Nat) :
    ∀ (n : Nat) (acc : List Char),
    (∀ c ∈ acc, 48 ≤ c.toNat ∧ c.toNat ≤ 57) →
    ∀ c ∈ natDecAux fuel n acc, 48 ≤ c.toNat ∧ c.toNat ≤ 57 := by
  induction fuel with
  | zero => intro n acc hacc c hc; exact hacc c hc
  | succ m ih =>
    intro n acc hacc c hc
    unfold natDecAux at hc
    split_ifs at hc with hn
    · rcases List.mem_cons.mp hc with h1 | h1
      · rw [h1]
        unfold digitChar
        rw [charToNatOfNat (by omega)]
        omega
      · exact hacc c h1
    · refine ih (n / 10) _ ?_ c hc
      intro d hd
      rcases List.mem_cons.mp hd with h1 | h1
      · rw [h1]
        unfold digitChar
        rw [charToNatOfNat (by omega)]
        have : n % 10 < 10 := Nat.mod_lt _ (by norm_num)
        omega
      · exact hacc d h1

/-- The decimal rendering of an integer is a valid header value. -/
theorem validHeaderValue_intDec (i : Int) :
    validHeaderValue (intDec i) = true := by
  apply validHeaderValue_of_chars
  intro c hc
  cases i with
  | ofNat n =>
    have := natDecAux_chars (n + 1) n [] (by simp) c hc
    omega
  | negSucc m =>
    simp only [intDec, String.data_append] at hc
    rcases List.mem_append.mp hc with h1 | h1
    · have : c = '-' := by simpa using h1
      rw [this]
      exact ⟨by decide, by decide⟩
    · have := natDecAux_chars (m + 1 + 1) (m + 1) [] (by simp) c h1
      omega

/-- The computed signature is a valid header value: a dollar tag followed
by forty lower-case hex digits. -/
theorem validHeaderValue_signature (c : OvhClient) (url ts method body : String) :
    validHeaderValue (c.signature url ts method body) = true := by
  apply validHeaderValue_of_chars
  intro ch hch
  unfold OvhClient.signature at hch
  rw [String.data_append] at hch
  rcases List.mem_append.mp hch with h1 | h1
  · have hd : ("$1$" : String).data = ['$', '1', '$'] := rfl
    rw [hd] at h1
    simp only [List.mem_cons, List.not_mem_nil, or_false] at h1
    rcases h1 with rfl | rfl | rfl <;> exact ⟨by decide, by decide⟩
  · have hmem := toHex40_chars _ ch h1
    have : ∀ d ∈ ("0123456789abcdef" : String).data,
        32 ≤ d.toNat ∧ d.toNat ≠ 127 := by decide
    exact this ch hmem

/-- Pure returns never panic. -/
theorem noPanic_pure {α : Type} (a : α) : NoPanic (M.pure a) := by
  intro w s
  simp [M.pure]

/-- Returned errors are not panics. -/
theorem noPanic_err {α : Type} (e : OvhError) : NoPanic (M.err e : M α) := by
  intro w s
  simp [M.err]

/-- Clock readings never panic. -/
theorem noPanic_mnow : NoPanic mnow := by
  intro w s
  simp [mnow]

/-- Sending never panics: a missing response is a returned error. -/
theorem noPanic_send (r : Request) : NoPanic (send r) := by
  intro w s
  unfold send
  cases henv : w.env r.method r.url r.body <;> simp [henv]

/-- Lifting a result that is not a panic never panics. -/
theorem noPanic_liftRes {α : Type} {r : RunResult α} (h : r ≠ .panic) :
    NoPanic (liftRes r) := by
  intro w s
  simpa [liftRes] using h

/-- Lifting a present option never panics. -/
theorem noPanic_liftPanic {α : Type} {o : Option α} (h : o.isSome = true) :
    NoPanic (liftPanic o) := by
  cases o with
  | none => cases h
  | some a => exact noPanic_pure a

/-- Sequencing never panics when neither stage does. -/
theorem noPanic_bind {α β : Type} {x : M α} {f : α → M β}
    (hx : NoPanic x) (hf : ∀ a, NoPanic (f a)) : NoPanic (M.bind x f) := by
  intro w s
  unfold M.bind
  rcases hr : x w s with ⟨r, s1⟩
  cases r with
  | ok a => exact hf a w s1
  | err e => simp
  | panic => exact absurd (by rw [hr]) (hx w s)

/-- The status check never panics. -/
theorem errorForStatus_ne_panic (url : String) (r : Response) :
    errorForStatus url r ≠ .panic := by
  unfold errorForStatus
  split <;> simp

/-- Body decoding never panics. -/
theorem noPanic_respJson {α : Type} (dec : Json → Option α) (url : String)
    (r : Response) : NoPanic (respJson dec url r) := by
  unfold respJson
  cases (parseJson r.body).bind dec with
  | none => exact noPanic_err _
  | some a => exact noPanic_pure a

/-- The unauthenticated GET never panics under a valid application key. -/
theorem noPanic_get_noauth (c : OvhClient) (path : String)
    (hak : validHeaderValue c.application_key = true) :
    NoPanic (c.get_noauth path) := by
  unfold OvhClient.get_noauth
  refine noPanic_bind (noPanic_liftPanic ?_) (fun h => noPanic_send _)
  simp [OvhClient.default_headers, hak]

/-- The time measurement never panics under a valid application key. -/
theorem noPanic_time_delta (c : OvhClient)
    (hak : validHeaderValue c.application_key = true) :
    NoPanic c.time_delta := by
  unfold OvhClient.time_delta
  refine noPanic_bind (noPanic_get_noauth c _ hak) (fun resp => ?_)
  cases hp : parseU64 resp.body with
  | none => exact noPanic_err _
  | some server_time =>
    refine noPanic_bind noPanic_mnow (fun now => ?_)
    dsimp only
    split
    · exact noPanic_pure _
    · exact noPanic_err _

/-- Header generation never panics when both credentials are valid header
values: the timestamp and signature headers are always valid, and the
content type is a fixed valid constant. -/
theorem noPanic_gen_headers (c : OvhClient) (url method body : String)
    (hak : validHeaderValue c.application_key = true)
    (hck : validHeaderValue c.consumer_key = true) :
    NoPanic (c.gen_headers url method body) := by
  unfold OvhClient.gen_headers
  refine noPanic_bind (noPanic_liftPanic ?_) (fun headers => ?_)
  · simp [OvhClient.default_headers, hak]
  refine noPanic_bind (noPanic_time_delta c hak) (fun td => ?_)
  refine noPanic_bind noPanic_mnow (fun nowRaw => ?_)
  dsimp only
  split
  · exact noPanic_err _
  · refine noPanic_bind (noPanic_liftPanic ?_) (fun h1 => ?_)
    · simp [insert_sensitive_header, hck]
    refine noPanic_bind (noPanic_liftPanic ?_) (fun h2 => ?_)
    · simp [insert_sensitive_header, validHeaderValue_intDec]
    refine noPanic_bind (noPanic_liftPanic ?_) (fun h3 => ?_)
    · simp [insert_sensitive_header, validHeaderValue_signature]
    split
    · exact noPanic_pure _
    · refine noPanic_bind (noPanic_liftPanic ?_) (fun h4 => noPanic_pure _)
      have hct : validHeaderValue "application/json; charset=utf-8" = true := by
        decide
      simp [hct]

/-- Header generation panics outright under an invalid application key. -/
theorem gen_headers_panic_app (c : OvhClient) (url method body : String)
    (hak : validHeaderValue c.application_key = false) (w : World)
    (s : NetState) : (c.gen_headers url method body) w s = (.panic, s) := by
  unfold OvhClient.gen_headers
  have hd : c.default_headers = none := by
    simp [OvhClient.default_headers, hak]
  rw [hd]
  rfl

/-- The unauthenticated GET panics under an invalid application key. -/
theorem get_noauth_panic_app (c : OvhClient) (path : String)
    (hak : validHeaderValue c.application_key = false) (w : World)
    (s : NetState) : (c.get_noauth path) w s = (.panic, s) := by
  unfold OvhClient.get_noauth
  have hd : c.default_headers = none := by
    simp [OvhClient.default_headers, hak]
  rw [hd]
  rfl

/-- A panicking first stage makes the whole sequence panic. -/
theorem bind_fst_panic {α β : Type} {x : M α} {f : α → M β} {w : World}
    {s : NetState} (h : (x w s).1 = .panic) : (M.bind x f w s).1 = .panic := by
  unfold M.bind
  rcases hr : x w s with ⟨r, s1⟩
  rw [hr] at h
  cases r with
  | ok a => simp at h
  | err e => simp at h
  | panic => rfl

/-- With a valid application key but an invalid consumer key, header
generation reaches the consumer header insert — the time measurement
having succeeded — and panics there. -/
theorem gen_headers_panic_ck (c : OvhClient) (url method body : String)
    (hak : validHeaderValue c.application_key = true)
    (hck : validHeaderValue c.consumer_key = false)
    (w : World) (s : NetState) (tr : Response) (T : Nat)
    (htime : w.env "GET" (c.url "/auth/time") "" = some tr)
    (hparse : parseU64 tr.body = some T)
    (hdlt : (w.clock s.tick % 18446744073709551616 + 18446744073709551616 - T) %
        18446744073709551616 < 9223372036854775808)
    (hnow : w.clock (s.tick + 1) % 18446744073709551616 <
        9223372036854775808) :
    ((c.gen_headers url method body) w s).1 = .panic := by
  unfold OvhClient.gen_headers OvhClient.time_delta OvhClient.get_noauth
  have hd : c.default_headers = some [("X-Ovh-Application", c.application_key)] := by
    simp [OvhClient.default_headers, hak]
  rw [hd]
  simp only [liftPanic, M.bind, M.pure, send, mnow]
  rw [htime]
  dsimp only
  rw [hparse]
  simp only [M.bind, M.pure, mnow]
  rw [if_pos hdlt]
  simp only [M.bind, M.pure]
  rw [if_pos hnow]
  have hins : insert_sensitive_header
      [("X-Ovh-Application", c.application_key)] "X-Ovh-Consumer"
      c.consumer_key = none := by
    simp [insert_sensitive_header, hck]
  rw [hins]
  rfl

/-- C10: an invalid byte in the application key makes every operation —
signed or unauthenticated — panic while building the headers rather than
return an error; an invalid byte in the consumer key makes every signed
operation panic once the time measurement inside header generation has
succeeded; and with both credentials valid header values, every request
operation is total — it never panics, whatever the world replies. -/
theorem C10_header_panic_totality :
    (∀ (c : OvhClient) (path body : String) (w : World) (s : NetState),
      validHeaderValue c.application_key = false →
      ((c.get path) w s).1 = .panic ∧
      ((c.get_noauth path) w s).1 = .panic ∧
      ((c.delete path) w s).1 = .panic ∧
      ((c.post path body) w s).1 = .panic ∧
      ((c.put path body) w s).1 = .panic) ∧
    (∀ (c : OvhClient) (path body : String) (w : World) (s : NetState)
       (tr : Response) (T : Nat),
      validHeaderValue c.application_key = true →
      validHeaderValue c.consumer_key = false →
      w.env "GET" (c.url "/auth/time") "" = some tr →
      parseU64 tr.body = some T →
      (w.clock s.tick % 18446744073709551616 + 18446744073709551616 - T) %
        18446744073709551616 < 9223372036854775808 →
      w.clock (s.tick + 1) % 18446744073709551616 < 9223372036854775808 →
      ((c.get path) w s).1 = .panic ∧
      ((c.delete path) w s).1 = .panic ∧
      ((c.post path body) w s).1 = .panic ∧
      ((c.put path body) w s).1 = .panic) ∧
    (∀ (c : OvhClient) (path body : String),
      validHeaderValue c.application_key = true →
      validHeaderValue c.consumer_key = true →
      NoPanic (c.get path) ∧ NoPanic (c.get_noauth path) ∧
      NoPanic (c.delete path) ∧ NoPanic (c.post path body) ∧
      NoPanic (c.put path body)) := by
  refine ⟨?_, ?_, ?_⟩
  · intro c path body w s hak
    have hg : ∀ u m b, ((c.gen_headers u m b) w s).1 = .panic := by
      intro u m b
      rw [gen_headers_panic_app c u m b hak w s]
    refine ⟨?_, ?_, ?_, ?_, ?_⟩
    · exact bind_fst_panic (hg _ _ _)
    · rw [get_noauth_panic_app c path hak w s]
    · exact bind_fst_panic (hg _ _ _)
    · exact bind_fst_panic (hg _ _ _)
    · exact bind_fst_panic (hg _ _ _)
  · intro c path body w s tr T hak hck htime hparse hdlt hnow
    have hg : ∀ u m b, ((c.gen_headers u m b) w s).1 = .panic :=
      fun u m b =>
        gen_headers_panic_ck c u m b hak hck w s tr T htime hparse hdlt hnow
    exact ⟨bind_fst_panic (hg _ _ _), bind_fst_panic (hg _ _ _),
      bind_fst_panic (hg _ _ _), bind_fst_panic (hg _ _ _)⟩
  · intro c path body hak hck
    refine ⟨?_, noPanic_get_noauth c path hak, ?_, ?_, ?_⟩
    · exact noPanic_bind (noPanic_gen_headers c _ _ _ hak hck)
        (fun h => noPanic_send _)
    · exact noPanic_bind (noPanic_gen_headers c _ _ _ hak hck)
        (fun h => noPanic_send _)
    · exact noPanic_bind (noPanic_gen_headers c _ _ _ hak hck)
        (fun h => noPanic_send _)
    · exact noPanic_bind (noPanic_gen_headers c _ _ _ hak hck)
        (fun h => noPanic_send _)

/-- Witness for C10: the client with a newline in its application key
panics on a signed GET, the one with a newline in its consumer key panics
on a signed GET once the time request succeeded, and the valid client's
signed GET does not panic. -/
theorem C10_witness :
    validHeaderValue cBadApp.application_key = false ∧
    ((cBadApp.get "/x") w3 st0).1 = .panic ∧
    validHeaderValue cBadCk.application_key = true ∧
    validHeaderValue cBadCk.consumer_key = false ∧
    ((cBadCk.get "/x") w3 st0).1 = .panic ∧
    ((cB.get "/x") w3 st0).1 ≠ .panic := by
  refine ⟨by decide, ?_, by decide, by decide, ?_, ?_⟩
  · exact (C10_header_panic_totality.1 cBadApp "/x" "" w3 st0 (by decide)).1
  · exact (C10_header_panic_totality.2.1 cBadCk "/x" "" w3 st0 ⟨200, "1000"⟩
      1000 (by decide) (by decide) rfl (by decide) (by decide) (by decide)).1
  · exact (C10_header_panic_totality.2.2 cB "/x" "" (by decide) (by decide)).1
      w3 st0

/-- Witness for C1: the format theorem at a concrete request. -/
theorem C1_witness :
    cB.signature "u" "t" "GET" "b" =
      "$1$" ++ sha1Hex ("as" ++ "+" ++ "ck" ++ "+" ++ "GET" ++ "+" ++ "u" ++
        "+" ++ "b" ++ "+" ++ "t") :=
  (C1_signature_format cB "GET" "u" "b" "t").1
